import Mathlib

set_option autoImplicit false

/-!
Verification development for the BioPal-ESP measurement-link subsystem
(`UART_Functions.cpp` / `UART_Functions.h`): the ISR ring buffer, the
framed binary protocol, the receiver state machine, and the
command/acknowledgement retry discipline.

All definitions are shallow embeddings of the C++ source.  Machine bytes
are modelled as `Nat` (with `% 256` made explicit exactly where the C
code performs `uint8_t` arithmetic), and IEEE-754 `float` values are
modelled by the exact rational value of their 32-bit pattern.
-/

namespace BioPal

/-! ## Protocol constants (from `UART_Functions.h`) -/

def UART_CMD_START_BYTE : Nat := 0xAA

def UART_CMD_END_BYTE : Nat := 0x55

def UART_CMD_PACKET_SIZE : Nat := 15

def UART_ACK_PACKET_SIZE : Nat := 4

def CMD_SET_PGA_GAIN : Nat := 0x01

def CMD_SET_MUX_CHANNEL : Nat := 0x02

def CMD_START_MEASUREMENT : Nat := 0x03

def CMD_END_MEASUREMENT : Nat := 0x04

def CMD_SET_TIA_GAIN : Nat := 0x05

def UART_DATA_START_BYTE : Nat := 0xAA

def UART_DATA_END_BYTE : Nat := 0x55

def UART_DATA_DUT_START : Nat := 0x10

def UART_DATA_FREQUENCY : Nat := 0x11

def UART_DATA_DUT_END : Nat := 0x12

def UART_DATA_DUT_START_SIZE : Nat := 7

def UART_DATA_FREQUENCY_SIZE : Nat := 26

def UART_DATA_DUT_END_SIZE : Nat := 4

def CIRC_BUFFER_SIZE : Nat := 512

/-! ## Ring buffer (`circBuffer` / `circBufferRead` / `circBufferWrite`) -/

/-- State of the ISR ring buffer: the 512-byte backing array `circBuffer`
together with the `circBufferHead` and `circBufferTail` indices. -/
structure CircBuf where
  data : List Nat
  head : Nat
  tail : Nat
deriving DecidableEq

/-- `circBufferAvailable`: the buffer has unread data iff head and tail differ. -/
def circBufferAvailable (cb : CircBuf) : Bool :=
  cb.head != cb.tail

/-- `circBufferRead`: return the byte at the tail and advance the tail
modulo `CIRC_BUFFER_SIZE`. -/
def circBufferRead (cb : CircBuf) : Nat × CircBuf :=
  ((cb.data.getD cb.tail 0), { cb with tail := (cb.tail + 1) % CIRC_BUFFER_SIZE })

/-- `circBufferWrite`: compute the next head; if it would collide with the
tail the byte is dropped without any state change, otherwise the byte is
stored at the current head and the head advances. -/
def circBufferWrite (cb : CircBuf) (b : Nat) : CircBuf :=
  let nextHead := (cb.head + 1) % CIRC_BUFFER_SIZE
  if nextHead ≠ cb.tail then
    { cb with data := cb.data.set cb.head b, head := nextHead }
  else
    cb

/-- Well-formedness of the ring-buffer state: the backing array has its
declared 512-byte size and both indices lie below it. -/
def CircBuf.WF (cb : CircBuf) : Prop :=
  cb.data.length = CIRC_BUFFER_SIZE ∧ cb.head < CIRC_BUFFER_SIZE ∧ cb.tail < CIRC_BUFFER_SIZE

/-- Number of unread bytes currently stored in the ring buffer. -/
def CircBuf.size (cb : CircBuf) : Nat :=
  (cb.head + CIRC_BUFFER_SIZE - cb.tail) % CIRC_BUFFER_SIZE

/-- Abstraction function: the queue of unread bytes, oldest first, as the
list of stored bytes from the tail index up to (excluding) the head. -/
def CircBuf.contents (cb : CircBuf) : List Nat :=
  (List.range cb.size).map (fun i => cb.data.getD ((cb.tail + i) % CIRC_BUFFER_SIZE) 0)

/-- Initial (empty) ring buffer. -/
def initCircBuf : CircBuf :=
  { data := List.replicate CIRC_BUFFER_SIZE 0, head := 0, tail := 0 }

lemma initCircBuf_WF : initCircBuf.WF :=
  ⟨List.length_replicate _ _, by decide, by decide⟩

lemma CircBuf.size_lt (cb : CircBuf) : cb.size < CIRC_BUFFER_SIZE := by
  unfold CircBuf.size CIRC_BUFFER_SIZE
  omega

lemma CircBuf.head_eq_tail_add_size (cb : CircBuf) (hwf : cb.WF) :
    cb.head = (cb.tail + cb.size) % CIRC_BUFFER_SIZE := by
  obtain ⟨-, hh, ht⟩ := hwf
  unfold CircBuf.size CIRC_BUFFER_SIZE at *
  omega

/-- The write guard fires (byte rejected) exactly when 511 bytes are stored. -/
lemma CircBuf.full_iff (cb : CircBuf) (hwf : cb.WF) :
    (cb.head + 1) % CIRC_BUFFER_SIZE = cb.tail ↔ cb.size = CIRC_BUFFER_SIZE - 1 := by
  obtain ⟨-, hh, ht⟩ := hwf
  unfold CircBuf.size CIRC_BUFFER_SIZE at *
  omega

lemma getD_set_self {l : List Nat} {i : Nat} (h : i < l.length) (a : Nat) :
    (l.set i a).getD i 0 = a := by
  simp [List.getD_eq_getElem?_getD, List.getElem?_set_self, h]

lemma getD_set_ne {l : List Nat} {i j : Nat} (h : i ≠ j) (a : Nat) :
    (l.set i a).getD j 0 = l.getD j 0 := by
  simp [List.getD_eq_getElem?_getD, List.getElem?_set_ne h]

lemma contents_write (cb : CircBuf) (b : Nat) (hwf : cb.WF)
    (hroom : cb.size < CIRC_BUFFER_SIZE - 1) :
    (circBufferWrite cb b).contents = cb.contents ++ [b] := by
  obtain ⟨hlen, hh, ht⟩ := hwf
  have hsz := cb.size_lt
  have hne : (cb.head + 1) % CIRC_BUFFER_SIZE ≠ cb.tail := by
    intro h
    rw [cb.full_iff ⟨hlen, hh, ht⟩] at h
    omega
  have hhead := cb.head_eq_tail_add_size ⟨hlen, hh, ht⟩
  unfold circBufferWrite
  rw [if_pos hne]
  unfold CircBuf.contents CircBuf.size at *
  simp only at *
  have hsize' : (cb.head + 1) % CIRC_BUFFER_SIZE + CIRC_BUFFER_SIZE - cb.tail
      ≡ cb.head + 1 + CIRC_BUFFER_SIZE - cb.tail [MOD CIRC_BUFFER_SIZE] := by
    unfold Nat.ModEq CIRC_BUFFER_SIZE at *
    omega
  have hsz1 : ((cb.head + 1) % CIRC_BUFFER_SIZE + CIRC_BUFFER_SIZE - cb.tail) % CIRC_BUFFER_SIZE
      = (cb.head + CIRC_BUFFER_SIZE - cb.tail) % CIRC_BUFFER_SIZE + 1 := by
    unfold CIRC_BUFFER_SIZE at *
    omega
  rw [hsz1, List.range_succ, List.map_append]
  congr 1
  · apply List.map_congr_left
    intro i hi
    rw [List.mem_range] at hi
    have hidx : (cb.tail + i) % CIRC_BUFFER_SIZE ≠ cb.head := by
      intro hcol
      unfold CIRC_BUFFER_SIZE at *
      omega
    exact getD_set_ne (Ne.symm hidx) b
  · simp only [List.map_cons, List.map_nil]
    congr 1
    have hidx : (cb.tail + (cb.head + CIRC_BUFFER_SIZE - cb.tail) % CIRC_BUFFER_SIZE)
        % CIRC_BUFFER_SIZE = cb.head := by
      unfold CIRC_BUFFER_SIZE at *
      omega
    rw [hidx]
    exact getD_set_self (by omega) b

lemma contents_read (cb : CircBuf) (hwf : cb.WF) (hne : 0 < cb.size) :
    (circBufferRead cb).1 = cb.contents.headD 0 ∧
      (circBufferRead cb).2.contents = cb.contents.tail := by
  obtain ⟨hlen, hh, ht⟩ := hwf
  have hsz := cb.size_lt
  unfold circBufferRead CircBuf.contents CircBuf.size at *
  simp only at *
  obtain ⟨k, hk⟩ : ∃ k, (cb.head + CIRC_BUFFER_SIZE - cb.tail) % CIRC_BUFFER_SIZE = k + 1 :=
    ⟨(cb.head + CIRC_BUFFER_SIZE - cb.tail) % CIRC_BUFFER_SIZE - 1, by omega⟩
  rw [hk]
  constructor
  · rw [List.range_succ_eq_map]
    have htt : cb.tail % CIRC_BUFFER_SIZE = cb.tail := Nat.mod_eq_of_lt ht
    simp [htt]
  · have hk' : (cb.head + CIRC_BUFFER_SIZE - (cb.tail + 1) % CIRC_BUFFER_SIZE)
        % CIRC_BUFFER_SIZE = k := by
      unfold CIRC_BUFFER_SIZE at *
      omega
    rw [hk', List.range_succ_eq_map]
    simp only [List.map_cons, List.tail_cons, List.map_map]
    apply List.map_congr_left
    intro i hi
    rw [List.mem_range] at hi
    have : ((cb.tail + 1) % CIRC_BUFFER_SIZE + i) % CIRC_BUFFER_SIZE
        = (cb.tail + (i + 1)) % CIRC_BUFFER_SIZE := by
      unfold CIRC_BUFFER_SIZE at *
      omega
    simp [Function.comp, this]

/-- C4: a push onto a full ring buffer (next head would hit the tail, i.e.
511 bytes stored) leaves the whole state unchanged; a push onto a non-full
buffer stores the byte at the head slot and advances only the head; in both
cases the head and tail indices stay below 512. -/
theorem circBufferWrite_overflow_policy (cb : CircBuf) (b : Nat) (hwf : cb.WF) :
    ((cb.head + 1) % CIRC_BUFFER_SIZE = cb.tail → circBufferWrite cb b = cb) ∧
    ((cb.head + 1) % CIRC_BUFFER_SIZE ≠ cb.tail →
      (circBufferWrite cb b).data.getD cb.head 0 = b ∧
      (circBufferWrite cb b).head = (cb.head + 1) % CIRC_BUFFER_SIZE ∧
      (circBufferWrite cb b).tail = cb.tail) ∧
    (circBufferWrite cb b).head < CIRC_BUFFER_SIZE ∧
    (circBufferWrite cb b).tail < CIRC_BUFFER_SIZE := by
  obtain ⟨hlen, hh, ht⟩ := hwf
  refine ⟨fun hfull => ?_, fun hnf => ?_, ?_⟩
  · unfold circBufferWrite
    rw [if_neg (by simpa using hfull)]
  · unfold circBufferWrite
    rw [if_pos hnf]
    exact ⟨getD_set_self (by omega) b, rfl, rfl⟩
  · unfold circBufferWrite
    by_cases hnf : (cb.head + 1) % CIRC_BUFFER_SIZE = cb.tail
    · rw [if_neg (by simpa using hnf)]
      exact ⟨hh, ht⟩
    · rw [if_pos hnf]
      refine ⟨?_, ht⟩
      have : CIRC_BUFFER_SIZE ≠ 0 := by decide
      exact Nat.mod_lt _ (by omega)

/-- Witness for `circBufferWrite_overflow_policy` at the initial buffer and byte 7. -/
theorem circBufferWrite_overflow_policy_witness :
    initCircBuf.WF ∧
    (((initCircBuf.head + 1) % CIRC_BUFFER_SIZE = initCircBuf.tail →
        circBufferWrite initCircBuf 7 = initCircBuf) ∧
      ((initCircBuf.head + 1) % CIRC_BUFFER_SIZE ≠ initCircBuf.tail →
        (circBufferWrite initCircBuf 7).data.getD initCircBuf.head 0 = 7 ∧
        (circBufferWrite initCircBuf 7).head = (initCircBuf.head + 1) % CIRC_BUFFER_SIZE ∧
        (circBufferWrite initCircBuf 7).tail = initCircBuf.tail) ∧
      (circBufferWrite initCircBuf 7).head < CIRC_BUFFER_SIZE ∧
      (circBufferWrite initCircBuf 7).tail < CIRC_BUFFER_SIZE) :=
  ⟨initCircBuf_WF, circBufferWrite_overflow_policy initCircBuf 7 initCircBuf_WF⟩

/-- C9: the ring buffer is a FIFO queue of usable capacity 511 = 512 - 1.
With `contents` the queue of unread bytes (oldest first): a push is accepted
exactly when fewer than 511 bytes are stored, an accepted push appends the
byte at the back, a rejected push changes nothing, and a pop removes and
returns the front byte — hence accepted bytes are returned exactly once, in
push order. -/
theorem circBuffer_fifo_refinement (cb : CircBuf) (b : Nat) (hwf : cb.WF) :
    cb.size ≤ CIRC_BUFFER_SIZE - 1 ∧
    (cb.size < CIRC_BUFFER_SIZE - 1 →
      (circBufferWrite cb b).contents = cb.contents ++ [b]) ∧
    (cb.size = CIRC_BUFFER_SIZE - 1 → circBufferWrite cb b = cb) ∧
    (0 < cb.size →
      (circBufferRead cb).1 = cb.contents.headD 0 ∧
      (circBufferRead cb).2.contents = cb.contents.tail) := by
  have hsz := cb.size_lt
  refine ⟨by omega, fun hroom => contents_write cb b hwf hroom, fun hfull => ?_,
    fun hne => contents_read cb hwf hne⟩
  · unfold circBufferWrite
    rw [if_neg]
    simp only [ne_eq, not_not]
    exact (cb.full_iff hwf).mpr hfull

/-- Witness for `circBuffer_fifo_refinement`: push 7 onto the empty buffer,
observing the accepted-push contract. -/
theorem circBuffer_fifo_refinement_witness :
    initCircBuf.size < CIRC_BUFFER_SIZE - 1 ∧
    (circBufferWrite initCircBuf 7).contents = initCircBuf.contents ++ [7] :=
  ⟨by decide,
    ((circBuffer_fifo_refinement initCircBuf 7 initCircBuf_WF).2.1 (by decide))⟩

/-! ## Receiver state machine (`processIncomingByte` and helpers) -/

/-- `UARTRxState` from `UART_Functions.h`.  `VALIDATING_END` is declared in
the enum but never entered by the code. -/
inductive RxSMState where
  | WAITING_START
  | READING_PACKET_TYPE
  | READING_DUT_START
  | READING_FREQUENCY
  | READING_DUT_END
  | VALIDATING_END
deriving DecidableEq

/-- `UARTRxContext`: the receiver scratch state.  The C `uint8_t buffer[32]`
is a 32-element list. -/
structure UARTRxContext where
  state : RxSMState
  buffer : List Nat
  byteCount : Nat
  expectedBytes : Nat
  packetType : Nat
  currentDUT : Nat
  expectedFreqCount : Nat
deriving DecidableEq

/-- Read a buffer byte, defaulting to 0 out of range (in-range use is proved
separately, see the C8 theorem). -/
def bufGet (buf : List Nat) (i : Nat) : Nat :=
  buf.getD i 0

/-- Little-endian 32-bit word assembled from four bytes
(`b0 | b1 << 8 | b2 << 16 | b3 << 24`). -/
def le32 (b0 b1 b2 b3 : Nat) : Nat :=
  b0 ||| (b1 <<< 8) ||| (b2 <<< 16) ||| (b3 <<< 24)

/-- `bytesToUint32(&buffer[i])`: little-endian 32-bit load from four
consecutive buffer bytes. -/
def bytesToUint32 (buf : List Nat) (i : Nat) : Nat :=
  le32 (bufGet buf i) (bufGet buf (i + 1)) (bufGet buf (i + 2)) (bufGet buf (i + 3))

/-- Exact rational value of a finite IEEE-754 binary32 bit pattern `w`
(`bytesToFloat` reinterprets four raw bytes as a `float`; this decodes the
resulting bit pattern).  Finite patterns (exponent field below 255) are
decoded exactly.  Exponent-255 patterns denote infinities and NaNs and have
no rational value; the formula extrapolates a finite placeholder for them, so
every theorem that asserts a `b32toQ` value restricts the pattern with
`IsFiniteF32`, and the remaining uses only compare two receiver runs in which
the same placeholder encoding appears identically on both sides. -/
def b32toQ (w : Nat) : ℚ :=
  let s : Nat := w / 2 ^ 31 % 2
  let e : Nat := w / 2 ^ 23 % 256
  let m : Nat := w % 2 ^ 23
  let mag : ℚ := if e = 0 then (m : ℚ) / 2 ^ 149 else ((2 ^ 23 + m : Nat) : ℚ) * 2 ^ e / 2 ^ 150
  if s = 1 then -mag else mag

/-- Exact-rational closed form of the phase-normalization loops
`while (d > 180) d -= 360; while (d < -180) d += 360;`: subtract (resp. add)
360 exactly `ceil((d - 180)/360)` (resp. `ceil((-180 - d)/360)`) times.  The
program runs these loops on binary32 floats, whose per-iteration rounding
this closed form ignores and which never terminate on infinite or very large
differences (see `phaseLoopStep` and the C7 counterexample), whereas this
function is total.  Every theorem that asserts a phase value therefore
restricts to differences that are binary32-representable with magnitude at
most 180, where the float loops perform no iteration and no rounding and this
function is the identity (`normPhase_eq_self`); the remaining uses only
compare two receiver runs in which the same idealization appears identically
on both sides. -/
def normPhase (x : ℚ) : ℚ :=
  if 180 < x then x - 360 * ((⌈(x - 180) / 360⌉ : ℤ) : ℚ)
  else if x < -180 then x + 360 * ((⌈(-180 - x) / 360⌉ : ℤ) : ℚ)
  else x

/-- The bit pattern `w` denotes a finite binary32 value: its exponent field
is below 255, so it is neither an infinity nor a NaN. -/
def IsFiniteF32 (w : Nat) : Prop :=
  w / 2 ^ 23 % 256 ≠ 255

instance (w : Nat) : Decidable (IsFiniteF32 w) :=
  inferInstanceAs (Decidable (w / 2 ^ 23 % 256 ≠ 255))

/-- A binary32 datum in the value domain: a finite value (an exact rational),
a signed infinity, or a NaN.  Used to model the float phase computation of
`parseFrequencyPacket` faithfully where the exact-rational idealization above
is not. -/
inductive F32 where
  | finite (q : ℚ)
  | inf (neg : Bool)
  | nan
deriving DecidableEq

/-- Round a rational to the nearest binary32 value, ties to even - the
rounding the hardware applies to every float operation result.  The exponent
is clamped at the subnormal regime, and magnitudes that round to 2^128 or
beyond overflow to infinity, as IEEE-754 prescribes. -/
def roundF32 (x : ℚ) : F32 :=
  if x = 0 then .finite 0
  else
    let neg : Bool := decide (x < 0)
    let a : ℚ := |x|
    let e0 : ℤ := (Nat.log2 a.num.natAbs : ℤ) - (Nat.log2 a.den : ℤ)
    let e : ℤ := if a < (2 : ℚ) ^ e0 then e0 - 1 else e0
    let q : ℤ := max (e - 23) (-149)
    let s : ℚ := a / (2 : ℚ) ^ q
    let f : ℤ := ⌊s⌋
    let m : ℤ := if s - f < 1 / 2 then f
      else if 1 / 2 < s - f then f + 1
      else if f % 2 = 0 then f else f + 1
    let v : ℚ := (m : ℚ) * (2 : ℚ) ^ q
    if 2 ^ 128 ≤ v then .inf neg else .finite (if neg then -v else v)

/-- Decode a binary32 bit pattern into the value domain: exponent-255
patterns are infinities (zero mantissa) or NaNs, everything else is the
finite value `b32toQ` gives exactly. -/
def f32ofBits (w : Nat) : F32 :=
  if w / 2 ^ 23 % 256 = 255 then
    (if w % 2 ^ 23 = 0 then .inf (w / 2 ^ 31 % 2 = 1) else .nan)
  else
    .finite (b32toQ w)

/-- Binary32 subtraction: finite operands subtract exactly and then round;
infinities dominate finite operands; equal-signed infinities and any NaN
operand give NaN. -/
def f32sub : F32 → F32 → F32
  | .finite x, .finite y => roundF32 (x - y)
  | .inf s, .finite _ => .inf s
  | .finite _, .inf s => .inf (!s)
  | .inf s, .inf t => if s = t then .nan else .inf s
  | _, _ => .nan

/-- Binary32 comparison `a > c` against a finite constant `c`: exact on
finite values, true only for positive infinity among the specials, and false
for NaN (IEEE comparisons with NaN are false). -/
def f32gt (a : F32) (c : ℚ) : Bool :=
  match a with
  | .finite x => decide (c < x)
  | .inf s => !s
  | .nan => false

/-- One iteration of the first normalization loop of `parseFrequencyPacket`
on binary32: `phase_diff -= 360.0f`. -/
def phaseLoopStep (x : F32) : F32 :=
  f32sub x (.finite 360)

/-- `x` is exactly a finite binary32 value: rounding returns it unchanged,
so a float operation producing the exact result `x` commits no error. -/
def IsRepF32 (x : ℚ) : Prop :=
  roundF32 x = .finite x

/-- `MeasurementPoint` from `defines.h`.  The three `float` fields carry the
exact rational values of the corresponding binary32 data. -/
structure MeasurementPoint where
  freq_hz : Nat
  V_magnitude : ℚ
  I_magnitude : ℚ
  phase_deg : ℚ
  pga_gain : Nat
  tia_gain : Bool
  valid : Bool
deriving DecidableEq

/-- `parseFrequencyPacket` (the current revision of `UART_Functions.cpp`):
frequency is a little-endian u32 at buffer offset 2; voltage/current
magnitudes and phases are IEEE-754 floats at offsets 6, 10, 14, 18; only the
normalized phase difference V − I is kept; PGA gain, TIA gain and validity
come from offsets 22, 23, 24.  The enqueue of the result is modelled by the
`RxEvent.enqueueSample` event at the call site.  The phase difference is
computed here in exact rational arithmetic, while the program computes it in
binary32 — the subtraction rounds, and the normalization loops diverge on
infinite or very large differences, during which nothing is enqueued.  The
theorems that assert decoded values or the enqueue therefore carry the
`IsFiniteF32`/`IsRepF32`/magnitude-at-most-180 hypotheses under which both
computations provably coincide, and the C7 counterexample exhibits the
divergence through the faithful `phaseLoopStep`. -/
def parseFrequencyPacket (rx : UARTRxContext) : MeasurementPoint :=
  let v_phase := b32toQ (bytesToUint32 rx.buffer 10)
  let i_phase := b32toQ (bytesToUint32 rx.buffer 18)
  { freq_hz := bytesToUint32 rx.buffer 2
    V_magnitude := b32toQ (bytesToUint32 rx.buffer 6)
    I_magnitude := b32toQ (bytesToUint32 rx.buffer 14)
    phase_deg := normPhase (v_phase - i_phase)
    pga_gain := bufGet rx.buffer 22
    tia_gain := bufGet rx.buffer 23 == 1
    valid := bufGet rx.buffer 24 == 1 }

/-- Module state surrounding the receiver: the `rxContext` plus the
file-scope ACK flags and DUT-completion counters (all `uint8_t` /
`volatile bool` statics in the source). -/
structure Sys where
  rx : UARTRxContext
  ackReceived : Bool
  ackCmdType : Nat
  completedDUTIndex : Nat
  totalExpectedDUTs : Nat
  completedDUTCount : Nat
deriving DecidableEq

/-- Observable side effects of the receiver: a bounded-wait enqueue attempt
on the measurement queue, a give of the DUT-complete semaphore (paired with
the `completedDUTIndex` value the consumer would read), and a give of the
measurement-complete semaphore. -/
inductive RxEvent where
  | enqueueSample (p : MeasurementPoint)
  | dutComplete (idx : Nat)
  | sweepComplete
deriving DecidableEq

/-- Dispatch on a completed frame (the body of the end-byte-valid branch of
`processIncomingByte`).  `completedDUTIndex = dutNum - 1` and
`completedDUTCount++` are `uint8_t` operations, hence the explicit `% 256`. -/
def completePacket (sys : Sys) : Sys × List RxEvent :=
  let rx := sys.rx
  if rx.expectedBytes = UART_ACK_PACKET_SIZE ∧ bufGet rx.buffer 2 = 0x01 ∧
      CMD_SET_PGA_GAIN ≤ rx.packetType ∧ rx.packetType ≤ CMD_SET_TIA_GAIN then
    ({ sys with ackReceived := true, ackCmdType := rx.packetType }, [])
  else if rx.packetType = UART_DATA_DUT_START then
    ({ sys with
        rx := { rx with currentDUT := bufGet rx.buffer 2,
                        expectedFreqCount := bufGet rx.buffer 3 } }, [])
  else if rx.packetType = UART_DATA_FREQUENCY then
    (sys, [.enqueueSample (parseFrequencyPacket rx)])
  else if rx.packetType = UART_DATA_DUT_END then
    let dutNum := bufGet rx.buffer 2
    let newIndex := (dutNum + 255) % 256
    let newCount := (sys.completedDUTCount + 1) % 256
    let sys1 := { sys with completedDUTIndex := newIndex, completedDUTCount := newCount }
    if sys.totalExpectedDUTs ≤ newCount then
      (sys1, [.dutComplete newIndex, .sweepComplete])
    else
      (sys1, [.dutComplete newIndex])
  else
    (sys, [])

/-- One step of the receiver state machine (`processIncomingByte`). -/
def processIncomingByte (sys : Sys) (b : Nat) : Sys × List RxEvent :=
  match sys.rx.state with
  | .WAITING_START =>
      if b = UART_DATA_START_BYTE then
        ({ sys with rx := { sys.rx with buffer := sys.rx.buffer.set 0 b, byteCount := 1,
                                        state := .READING_PACKET_TYPE } }, [])
      else
        (sys, [])
  | .READING_PACKET_TYPE =>
      let rx0 := { sys.rx with buffer := sys.rx.buffer.set 1 b, packetType := b, byteCount := 2 }
      if CMD_SET_PGA_GAIN ≤ b ∧ b ≤ CMD_SET_TIA_GAIN then
        ({ sys with rx := { rx0 with expectedBytes := UART_ACK_PACKET_SIZE,
                                     state := .READING_DUT_START } }, [])
      else if b = UART_DATA_DUT_START then
        ({ sys with rx := { rx0 with expectedBytes := UART_DATA_DUT_START_SIZE,
                                     state := .READING_DUT_START } }, [])
      else if b = UART_DATA_FREQUENCY then
        ({ sys with rx := { rx0 with expectedBytes := UART_DATA_FREQUENCY_SIZE,
                                     state := .READING_FREQUENCY } }, [])
      else if b = UART_DATA_DUT_END then
        ({ sys with rx := { rx0 with expectedBytes := UART_DATA_DUT_END_SIZE,
                                     state := .READING_DUT_END } }, [])
      else
        ({ sys with rx := { rx0 with state := .WAITING_START } }, [])
  | .READING_DUT_START | .READING_FREQUENCY | .READING_DUT_END =>
      let rx1 := { sys.rx with buffer := sys.rx.buffer.set sys.rx.byteCount b,
                               byteCount := sys.rx.byteCount + 1 }
      if rx1.expectedBytes ≤ rx1.byteCount then
        let step :=
          if bufGet rx1.buffer (rx1.byteCount - 1) = UART_DATA_END_BYTE then
            completePacket { sys with rx := rx1 }
          else
            ({ sys with rx := rx1 }, [])
        ({ step.1 with rx := { step.1.rx with state := .WAITING_START, byteCount := 0 } }, step.2)
      else
        ({ sys with rx := rx1 }, [])
  | .VALIDATING_END =>
      (sys, [])

/-- Run the receiver over a byte list, collecting emitted events in order
(`processBufferedBytes` drains bytes one at a time in arrival order). -/
def runBytes (sys : Sys) : List Nat → Sys × List RxEvent
  | [] => (sys, [])
  | b :: rest =>
      let s1 := processIncomingByte sys b
      let s2 := runBytes s1.1 rest
      (s2.1, s1.2 ++ s2.2)

/-- Receiver context as set up by `initUART`. -/
def initRx : UARTRxContext :=
  { state := .WAITING_START, buffer := List.replicate 32 0, byteCount := 0,
    expectedBytes := 0, packetType := 0, currentDUT := 0, expectedFreqCount := 0 }

/-- Initial module state: `totalExpectedDUTs` defaults to 4. -/
def initSys : Sys :=
  { rx := initRx, ackReceived := false, ackCmdType := 0, completedDUTIndex := 0,
    totalExpectedDUTs := 4, completedDUTCount := 0 }

/-- A state in which the receiver is between frames: the state machine is in
`WAITING_START` and the scratch buffer has its declared 32-byte size. -/
def Synced (sys : Sys) : Prop :=
  sys.rx.state = .WAITING_START ∧ sys.rx.buffer.length = 32

/-! ## Generic lemmas about payload accumulation -/

/-- Store the bytes of `l` at consecutive indices starting from `i`. -/
def writeSeq (buf : List Nat) (i : Nat) : List Nat → List Nat
  | [] => buf
  | b :: rest => writeSeq (buf.set i b) (i + 1) rest

lemma writeSeq_length : ∀ (l : List Nat) (buf : List Nat) (i : Nat),
    (writeSeq buf i l).length = buf.length := by
  intro l
  induction l with
  | nil => intro buf i; rfl
  | cons b rest ih =>
      intro buf i
      simp [writeSeq, ih]

lemma bufGet_writeSeq_lt : ∀ (l : List Nat) (buf : List Nat) (i j : Nat), j < i →
    bufGet (writeSeq buf i l) j = bufGet buf j := by
  intro l
  induction l with
  | nil => intro buf i j _; rfl
  | cons b rest ih =>
      intro buf i j hj
      rw [writeSeq, ih (buf.set i b) (i + 1) j (by omega)]
      exact getD_set_ne (by omega) b

lemma bufGet_writeSeq_ge : ∀ (l : List Nat) (buf : List Nat) (i j : Nat), i + l.length ≤ j →
    bufGet (writeSeq buf i l) j = bufGet buf j := by
  intro l
  induction l with
  | nil => intro buf i j _; rfl
  | cons b rest ih =>
      intro buf i j hj
      simp only [List.length_cons] at hj
      rw [writeSeq, ih (buf.set i b) (i + 1) j (by omega)]
      exact getD_set_ne (by omega) b

lemma bufGet_writeSeq_in : ∀ (l : List Nat) (buf : List Nat) (i j : Nat),
    i ≤ j → j < i + l.length → j < buf.length →
    bufGet (writeSeq buf i l) j = l.getD (j - i) 0 := by
  intro l
  induction l with
  | nil => intro buf i j h1 h2 _; simp at h2; omega
  | cons b rest ih =>
      intro buf i j h1 h2 hlen
      by_cases hji : j = i
      · subst hji
        rw [writeSeq, bufGet_writeSeq_lt rest (buf.set j b) (j + 1) j (by omega), Nat.sub_self]
        exact getD_set_self hlen b
      · rw [writeSeq, ih (buf.set i b) (i + 1) j (by omega)
          (by simp only [List.length_cons] at h2; omega) (by simpa using hlen)]
        obtain ⟨k, hk⟩ : ∃ k, j - i = k + 1 := ⟨j - i - 1, by omega⟩
        rw [hk]
        have : j - (i + 1) = k := by omega
        rw [this]
        rfl

lemma runBytes_append (sys : Sys) (l1 l2 : List Nat) :
    runBytes sys (l1 ++ l2) =
      ((runBytes (runBytes sys l1).1 l2).1,
        (runBytes sys l1).2 ++ (runBytes (runBytes sys l1).1 l2).2) := by
  induction l1 generalizing sys with
  | nil => simp [runBytes]
  | cons b rest ih =>
      have hc : (b :: rest) ++ l2 = b :: (rest ++ l2) := rfl
      rw [hc]
      simp only [runBytes]
      rw [ih]
      simp [List.append_assoc]

/-- The three states that collect payload bytes. -/
def PayloadState (st : RxSMState) : Prop :=
  st = .READING_DUT_START ∨ st = .READING_FREQUENCY ∨ st = .READING_DUT_END

/-- While strictly more bytes than the remaining payload are outstanding, the
collection states just append bytes into the scratch buffer. -/
lemma runBytes_collect : ∀ (l : List Nat) (sys : Sys), PayloadState sys.rx.state →
    sys.rx.byteCount + l.length < sys.rx.expectedBytes →
    runBytes sys l =
      ({ sys with rx := { sys.rx with buffer := writeSeq sys.rx.buffer sys.rx.byteCount l,
                                      byteCount := sys.rx.byteCount + l.length } }, []) := by
  intro l
  induction l with
  | nil => intro sys _ _; simp [runBytes, writeSeq]
  | cons b rest ih =>
      intro sys hps hlen
      simp only [List.length_cons] at hlen
      have hstep : processIncomingByte sys b =
          ({ sys with rx := { sys.rx with buffer := sys.rx.buffer.set sys.rx.byteCount b,
                                          byteCount := sys.rx.byteCount + 1 } }, []) := by
        rcases hps with h | h | h <;>
          · simp only [processIncomingByte, h]
            rw [if_neg (show ¬ (sys.rx.expectedBytes ≤ sys.rx.byteCount + 1) by omega)]
      simp only [runBytes, hstep]
      rw [ih _ (by simpa using hps) (by simp only; omega)]
      simp [writeSeq, Nat.add_assoc, Nat.add_comm, Nat.add_left_comm]

/-! ## Single-step characterizations -/

lemma step_start (sys : Sys) (h : sys.rx.state = .WAITING_START) :
    processIncomingByte sys 0xAA =
      ({ sys with rx := { sys.rx with buffer := sys.rx.buffer.set 0 0xAA, byteCount := 1,
                                      state := .READING_PACKET_TYPE } }, []) := by
  simp only [processIncomingByte, h]
  rw [if_pos (show (0xAA : Nat) = UART_DATA_START_BYTE from rfl)]

lemma step_type_ack (sys : Sys) (c : Nat) (h : sys.rx.state = .READING_PACKET_TYPE)
    (hc1 : CMD_SET_PGA_GAIN ≤ c) (hc5 : c ≤ CMD_SET_TIA_GAIN) :
    processIncomingByte sys c =
      ({ sys with rx := { sys.rx with buffer := sys.rx.buffer.set 1 c, byteCount := 2,
                                      expectedBytes := UART_ACK_PACKET_SIZE, packetType := c,
                                      state := .READING_DUT_START } }, []) := by
  simp only [processIncomingByte, h]
  rw [if_pos ⟨hc1, hc5⟩]

lemma step_type_dutStart (sys : Sys) (h : sys.rx.state = .READING_PACKET_TYPE) :
    processIncomingByte sys 0x10 =
      ({ sys with rx := { sys.rx with buffer := sys.rx.buffer.set 1 0x10, byteCount := 2,
                                      expectedBytes := UART_DATA_DUT_START_SIZE,
                                      packetType := 0x10,
                                      state := .READING_DUT_START } }, []) := by
  simp only [processIncomingByte, h]
  rw [if_neg (by decide), if_pos (show (0x10 : Nat) = UART_DATA_DUT_START from rfl)]

lemma step_type_freq (sys : Sys) (h : sys.rx.state = .READING_PACKET_TYPE) :
    processIncomingByte sys 0x11 =
      ({ sys with rx := { sys.rx with buffer := sys.rx.buffer.set 1 0x11, byteCount := 2,
                                      expectedBytes := UART_DATA_FREQUENCY_SIZE,
                                      packetType := 0x11,
                                      state := .READING_FREQUENCY } }, []) := by
  simp only [processIncomingByte, h]
  rw [if_neg (by decide), if_neg (by decide),
    if_pos (show (0x11 : Nat) = UART_DATA_FREQUENCY from rfl)]

lemma step_type_dutEnd (sys : Sys) (h : sys.rx.state = .READING_PACKET_TYPE) :
    processIncomingByte sys 0x12 =
      ({ sys with rx := { sys.rx with buffer := sys.rx.buffer.set 1 0x12, byteCount := 2,
                                      expectedBytes := UART_DATA_DUT_END_SIZE,
                                      packetType := 0x12,
                                      state := .READING_DUT_END } }, []) := by
  simp only [processIncomingByte, h]
  rw [if_neg (by decide), if_neg (by decide), if_neg (by decide),
    if_pos (show (0x12 : Nat) = UART_DATA_DUT_END from rfl)]

lemma step_type_unknown (sys : Sys) (t : Nat) (h : sys.rx.state = .READING_PACKET_TYPE)
    (h5 : ¬ (CMD_SET_PGA_GAIN ≤ t ∧ t ≤ CMD_SET_TIA_GAIN))
    (h10 : t ≠ UART_DATA_DUT_START) (h11 : t ≠ UART_DATA_FREQUENCY)
    (h12 : t ≠ UART_DATA_DUT_END) :
    processIncomingByte sys t =
      ({ sys with rx := { sys.rx with buffer := sys.rx.buffer.set 1 t, byteCount := 2,
                                      packetType := t, state := .WAITING_START } }, []) := by
  simp only [processIncomingByte, h]
  rw [if_neg h5, if_neg h10, if_neg h11, if_neg h12]

lemma step_acc (sys : Sys) (b : Nat) (hps : PayloadState sys.rx.state)
    (hlt : sys.rx.byteCount + 1 < sys.rx.expectedBytes) :
    processIncomingByte sys b =
      ({ sys with rx := { sys.rx with buffer := sys.rx.buffer.set sys.rx.byteCount b,
                                      byteCount := sys.rx.byteCount + 1 } }, []) := by
  rcases hps with h | h | h <;>
    · simp only [processIncomingByte, h]
      rw [if_neg (show ¬ (sys.rx.expectedBytes ≤ sys.rx.byteCount + 1) by omega)]

lemma step_final_bad (sys : Sys) (e : Nat) (hps : PayloadState sys.rx.state)
    (hcnt : sys.rx.expectedBytes ≤ sys.rx.byteCount + 1)
    (hlen : sys.rx.byteCount < sys.rx.buffer.length) (he : e ≠ UART_DATA_END_BYTE) :
    processIncomingByte sys e =
      ({ sys with rx := { sys.rx with buffer := sys.rx.buffer.set sys.rx.byteCount e,
                                      byteCount := 0, state := .WAITING_START } }, []) := by
  rcases hps with h | h | h <;>
    · simp only [processIncomingByte, h]
      rw [if_pos (show sys.rx.expectedBytes ≤ sys.rx.byteCount + 1 from hcnt)]
      rw [show bufGet (sys.rx.buffer.set sys.rx.byteCount e) (sys.rx.byteCount + 1 - 1) = e from
        getD_set_self hlen e]
      rw [if_neg he]

lemma step_final_ok (sys : Sys) (hps : PayloadState sys.rx.state)
    (hcnt : sys.rx.expectedBytes ≤ sys.rx.byteCount + 1)
    (hlen : sys.rx.byteCount < sys.rx.buffer.length) :
    processIncomingByte sys UART_DATA_END_BYTE =
      (let cp := completePacket
        { sys with rx := { sys.rx with
            buffer := sys.rx.buffer.set sys.rx.byteCount UART_DATA_END_BYTE,
            byteCount := sys.rx.byteCount + 1 } }
       ({ cp.1 with rx := { cp.1.rx with state := .WAITING_START, byteCount := 0 } }, cp.2)) := by
  rcases hps with h | h | h <;>
    · simp only [processIncomingByte, h]
      rw [if_pos (show sys.rx.expectedBytes ≤ sys.rx.byteCount + 1 from hcnt)]
      rw [show bufGet (sys.rx.buffer.set sys.rx.byteCount UART_DATA_END_BYTE)
          (sys.rx.byteCount + 1 - 1) = UART_DATA_END_BYTE from getD_set_self hlen _]
      rw [if_pos rfl]

/-! ## Dispatch characterizations (`completePacket`) -/

lemma completePacket_ack (sys : Sys) (hexp : sys.rx.expectedBytes = 4)
    (hb2 : bufGet sys.rx.buffer 2 = 1) (hc1 : 1 ≤ sys.rx.packetType)
    (hc5 : sys.rx.packetType ≤ 5) :
    completePacket sys = ({ sys with ackReceived := true, ackCmdType := sys.rx.packetType }, []) := by
  unfold completePacket
  rw [if_pos ⟨hexp, hb2, hc1, hc5⟩]

lemma completePacket_ack_ignored (sys : Sys) (hc1 : 1 ≤ sys.rx.packetType)
    (hc5 : sys.rx.packetType ≤ 5) (hb2 : bufGet sys.rx.buffer 2 ≠ 1) :
    completePacket sys = (sys, []) := by
  unfold completePacket
  rw [if_neg (fun hall => hb2 hall.2.1),
    if_neg (show sys.rx.packetType ≠ UART_DATA_DUT_START by unfold UART_DATA_DUT_START; omega),
    if_neg (show sys.rx.packetType ≠ UART_DATA_FREQUENCY by unfold UART_DATA_FREQUENCY; omega),
    if_neg (show sys.rx.packetType ≠ UART_DATA_DUT_END by unfold UART_DATA_DUT_END; omega)]

lemma completePacket_dutStart (sys : Sys) (hexp : sys.rx.expectedBytes = 7)
    (hpt : sys.rx.packetType = UART_DATA_DUT_START) :
    completePacket sys =
      ({ sys with rx := { sys.rx with currentDUT := bufGet sys.rx.buffer 2,
                                      expectedFreqCount := bufGet sys.rx.buffer 3 } }, []) := by
  unfold completePacket
  rw [if_neg (fun hall => by rw [hexp] at hall; exact absurd hall.1 (by decide)), if_pos hpt]

lemma completePacket_freq (sys : Sys) (hexp : sys.rx.expectedBytes = 26)
    (hpt : sys.rx.packetType = UART_DATA_FREQUENCY) :
    completePacket sys = (sys, [.enqueueSample (parseFrequencyPacket sys.rx)]) := by
  unfold completePacket
  rw [if_neg (fun hall => by rw [hexp] at hall; exact absurd hall.1 (by decide))]
  rw [if_neg (by rw [hpt]; decide), if_pos hpt]

lemma completePacket_dutEnd (sys : Sys) (hpt : sys.rx.packetType = UART_DATA_DUT_END) :
    completePacket sys =
      (let newIndex := (bufGet sys.rx.buffer 2 + 255) % 256
       let newCount := (sys.completedDUTCount + 1) % 256
       ({ sys with completedDUTIndex := newIndex, completedDUTCount := newCount },
        if sys.totalExpectedDUTs ≤ newCount then [.dutComplete newIndex, .sweepComplete]
        else [.dutComplete newIndex])) := by
  unfold completePacket
  rw [if_neg (fun hall => by rw [hpt] at hall; exact absurd hall.2.2.2 (by decide))]
  rw [if_neg (by rw [hpt]; decide), if_neg (by rw [hpt]; decide), if_pos hpt]
  by_cases hc : sys.totalExpectedDUTs ≤ (sys.completedDUTCount + 1) % 256
  · rw [if_pos hc]
    simp only [if_pos hc]
  · rw [if_neg hc]
    simp only [if_neg hc]

/-! ## Whole-frame characterizations -/

lemma bufGet_set_self {l : List Nat} {i : Nat} (h : i < l.length) (a : Nat) :
    bufGet (l.set i a) i = a :=
  getD_set_self h a

lemma bufGet_set_ne {l : List Nat} {i j : Nat} (h : i ≠ j) (a : Nat) :
    bufGet (l.set i a) j = bufGet l j :=
  getD_set_ne h a

lemma runBytes_cons_eq (sys sys1 : Sys) (evs1 : List RxEvent) (b : Nat) (l : List Nat)
    (h : processIncomingByte sys b = (sys1, evs1)) :
    runBytes sys (b :: l) = ((runBytes sys1 l).1, evs1 ++ (runBytes sys1 l).2) := by
  simp [runBytes, h]

/-- Scratch context after a completed frame: back in `WAITING_START` with
`byteCount` cleared, the frame bytes still in the buffer, and the type
dispatch data as set while the frame was read. -/
def rxDone (rx : UARTRxContext) (buf : List Nat) (n t : Nat) : UARTRxContext :=
  { rx with state := .WAITING_START, byteCount := 0, buffer := buf,
            expectedBytes := n, packetType := t }

/-- Wire image of an `AckPacket`-shaped frame with tag `c` and status byte `a`. -/
def ackFrame (c a : Nat) : List Nat :=
  [0xAA, c, a, 0x55]

/-- Wire image of a `DutStartPacket`. -/
def dutStartFrame (d n r1 r2 : Nat) : List Nat :=
  [0xAA, 0x10, d, n, r1, r2, 0x55]

/-- Wire image of a `DutEndPacket` carrying DUT number `d`. -/
def dutEndFrame (d : Nat) : List Nat :=
  [0xAA, 0x12, d, 0x55]

/-- Wire image of a `FrequencySamplePacket` with 23-byte payload `p`. -/
def freqFrame (p : List Nat) : List Nat :=
  0xAA :: 0x11 :: (p ++ [0x55])

lemma run_ackFrame (sys : Sys) (c a : Nat) (hs : Synced sys)
    (hc1 : CMD_SET_PGA_GAIN ≤ c) (hc5 : c ≤ CMD_SET_TIA_GAIN) :
    runBytes sys (ackFrame c a) =
      ({ sys with
          rx := rxDone sys.rx ((((sys.rx.buffer.set 0 0xAA).set 1 c).set 2 a).set 3 0x55) 4 c,
          ackReceived := if a = 1 then true else sys.ackReceived,
          ackCmdType := if a = 1 then c else sys.ackCmdType }, []) := by
  obtain ⟨hst, hlen⟩ := hs
  have hc1' : 1 ≤ c := hc1
  have hc5' : c ≤ 5 := hc5
  have h10 : c ≠ 16 := by omega
  have h11 : c ≠ 17 := by omega
  have h12 : c ≠ 18 := by omega
  by_cases ha : a = 1 <;>
    simp [ackFrame, runBytes, processIncomingByte, completePacket, rxDone, hst, hc1', hc5',
      ha, h10, h11, h12, bufGet_set_ne, bufGet_set_self, hlen, UART_DATA_START_BYTE,
      UART_DATA_END_BYTE, UART_ACK_PACKET_SIZE, CMD_SET_PGA_GAIN, CMD_SET_TIA_GAIN,
      UART_DATA_DUT_START, UART_DATA_FREQUENCY, UART_DATA_DUT_END]

/-- Decoded form of a frequency frame with payload `p` (frame bytes 2..24):
bytes 0-3 of `p` are the frequency word, 4-7 the voltage-magnitude float
bits, 8-11 the voltage-phase float bits, 12-15 the current-magnitude float
bits, 16-19 the current-phase float bits, then PGA gain, TIA gain and the
validity flag. -/
def freqPointOf (p : List Nat) : MeasurementPoint :=
  { freq_hz := le32 (p.getD 0 0) (p.getD 1 0) (p.getD 2 0) (p.getD 3 0)
    V_magnitude := b32toQ (le32 (p.getD 4 0) (p.getD 5 0) (p.getD 6 0) (p.getD 7 0))
    I_magnitude := b32toQ (le32 (p.getD 12 0) (p.getD 13 0) (p.getD 14 0) (p.getD 15 0))
    phase_deg := normPhase
      (b32toQ (le32 (p.getD 8 0) (p.getD 9 0) (p.getD 10 0) (p.getD 11 0)) -
        b32toQ (le32 (p.getD 16 0) (p.getD 17 0) (p.getD 18 0) (p.getD 19 0)))
    pga_gain := p.getD 20 0
    tia_gain := p.getD 21 0 == 1
    valid := p.getD 22 0 == 1 }

lemma run_ackFrame_bad (sys : Sys) (c a e : Nat) (hs : Synced sys)
    (hc1 : CMD_SET_PGA_GAIN ≤ c) (hc5 : c ≤ CMD_SET_TIA_GAIN) (he : e ≠ 0x55) :
    runBytes sys [0xAA, c, a, e] =
      ({ sys with
          rx := rxDone sys.rx ((((sys.rx.buffer.set 0 0xAA).set 1 c).set 2 a).set 3 e) 4 c },
        []) := by
  obtain ⟨hst, hlen⟩ := hs
  have hc1' : 1 ≤ c := hc1
  have hc5' : c ≤ 5 := hc5
  simp [runBytes, processIncomingByte, completePacket, rxDone, hst, hc1', hc5', he,
    bufGet_set_ne, bufGet_set_self, hlen, UART_DATA_START_BYTE, UART_DATA_END_BYTE,
    UART_ACK_PACKET_SIZE, CMD_SET_PGA_GAIN, CMD_SET_TIA_GAIN]

lemma run_dutStartFrame (sys : Sys) (d n r1 r2 : Nat) (hs : Synced sys) :
    runBytes sys (dutStartFrame d n r1 r2) =
      ({ sys with
          rx := { (rxDone sys.rx (((((((sys.rx.buffer.set 0 0xAA).set 1 0x10).set 2 d).set 3 n).set 4 r1).set 5 r2).set 6 0x55) 7 0x10) with currentDUT := d, expectedFreqCount := n } }, []) := by
  obtain ⟨hst, hlen⟩ := hs
  simp [dutStartFrame, runBytes, processIncomingByte, completePacket, rxDone, hst,
    bufGet_set_ne, bufGet_set_self, hlen, UART_DATA_START_BYTE, UART_DATA_END_BYTE,
    UART_ACK_PACKET_SIZE, CMD_SET_PGA_GAIN, CMD_SET_TIA_GAIN, UART_DATA_DUT_START,
    UART_DATA_DUT_START_SIZE, UART_DATA_FREQUENCY, UART_DATA_DUT_END]

lemma run_dutStartFrame_bad (sys : Sys) (d n r1 r2 e : Nat) (hs : Synced sys)
    (he : e ≠ 0x55) :
    runBytes sys [0xAA, 0x10, d, n, r1, r2, e] =
      ({ sys with
          rx := rxDone sys.rx (((((((sys.rx.buffer.set 0 0xAA).set 1 0x10).set 2 d).set 3 n).set 4 r1).set 5 r2).set 6 e) 7 0x10 }, []) := by
  obtain ⟨hst, hlen⟩ := hs
  simp [runBytes, processIncomingByte, completePacket, rxDone, hst, he,
    bufGet_set_ne, bufGet_set_self, hlen, UART_DATA_START_BYTE, UART_DATA_END_BYTE,
    UART_ACK_PACKET_SIZE, CMD_SET_PGA_GAIN, CMD_SET_TIA_GAIN, UART_DATA_DUT_START,
    UART_DATA_DUT_START_SIZE, UART_DATA_FREQUENCY, UART_DATA_DUT_END]

lemma run_dutEndFrame (sys : Sys) (d : Nat) (hs : Synced sys) :
    runBytes sys (dutEndFrame d) =
      ({ sys with
          rx := rxDone sys.rx ((((sys.rx.buffer.set 0 0xAA).set 1 0x12).set 2 d).set 3 0x55)
            4 0x12,
          completedDUTIndex := (d + 255) % 256,
          completedDUTCount := (sys.completedDUTCount + 1) % 256 },
        if sys.totalExpectedDUTs ≤ (sys.completedDUTCount + 1) % 256 then
          [.dutComplete ((d + 255) % 256), .sweepComplete]
        else [.dutComplete ((d + 255) % 256)]) := by
  obtain ⟨hst, hlen⟩ := hs
  by_cases hq : sys.totalExpectedDUTs ≤ (sys.completedDUTCount + 1) % 256 <;>
    simp [dutEndFrame, runBytes, processIncomingByte, completePacket, rxDone, hst, hq,
      bufGet_set_ne, bufGet_set_self, hlen, UART_DATA_START_BYTE, UART_DATA_END_BYTE,
      UART_ACK_PACKET_SIZE, CMD_SET_PGA_GAIN, CMD_SET_TIA_GAIN, UART_DATA_DUT_START,
      UART_DATA_DUT_END_SIZE, UART_DATA_FREQUENCY, UART_DATA_DUT_END]

lemma run_dutEndFrame_bad (sys : Sys) (d e : Nat) (hs : Synced sys) (he : e ≠ 0x55) :
    runBytes sys [0xAA, 0x12, d, e] =
      ({ sys with
          rx := rxDone sys.rx ((((sys.rx.buffer.set 0 0xAA).set 1 0x12).set 2 d).set 3 e)
            4 0x12 }, []) := by
  obtain ⟨hst, hlen⟩ := hs
  simp [runBytes, processIncomingByte, completePacket, rxDone, hst, he,
    bufGet_set_ne, bufGet_set_self, hlen, UART_DATA_START_BYTE, UART_DATA_END_BYTE,
    UART_ACK_PACKET_SIZE, CMD_SET_PGA_GAIN, CMD_SET_TIA_GAIN, UART_DATA_DUT_START,
    UART_DATA_DUT_END_SIZE, UART_DATA_FREQUENCY, UART_DATA_DUT_END]

lemma run_unknownTag (sys : Sys) (t : Nat) (hs : Synced sys)
    (h5 : ¬ (CMD_SET_PGA_GAIN ≤ t ∧ t ≤ CMD_SET_TIA_GAIN)) (h10 : t ≠ 0x10)
    (h11 : t ≠ 0x11) (h12 : t ≠ 0x12) :
    runBytes sys [0xAA, t] =
      ({ sys with rx := { sys.rx with buffer := (sys.rx.buffer.set 0 0xAA).set 1 t,
                                      byteCount := 2, packetType := t,
                                      state := .WAITING_START } }, []) := by
  obtain ⟨hst, hlen⟩ := hs
  have h5' : ¬ (1 ≤ t ∧ t ≤ 5) := h5
  simp [runBytes, processIncomingByte, hst, h5', h10, h11, h12,
    UART_DATA_START_BYTE, UART_DATA_DUT_START, UART_DATA_FREQUENCY, UART_DATA_DUT_END,
    CMD_SET_PGA_GAIN, CMD_SET_TIA_GAIN]

lemma run_freqFrame (sys : Sys) (p : List Nat) (hs : Synced sys) (hp : p.length = 23) :
    runBytes sys (freqFrame p) =
      ({ sys with
          rx := rxDone sys.rx
            ((writeSeq ((sys.rx.buffer.set 0 0xAA).set 1 0x11) 2 p).set 25 0x55) 26 0x11 },
        [.enqueueSample (freqPointOf p)]) := by
  obtain ⟨hst, hlen⟩ := hs
  have e1 : processIncomingByte sys 0xAA =
      ({ sys with rx := { sys.rx with buffer := sys.rx.buffer.set 0 0xAA, byteCount := 1,
                                      state := .READING_PACKET_TYPE } }, []) :=
    step_start sys hst
  have e2 : processIncomingByte
      ({ sys with rx := { sys.rx with buffer := sys.rx.buffer.set 0 0xAA, byteCount := 1,
                                      state := .READING_PACKET_TYPE } } : Sys) 0x11 =
      ({ sys with rx := { sys.rx with buffer := (sys.rx.buffer.set 0 0xAA).set 1 0x11,
                                      byteCount := 2,
                                      expectedBytes := UART_DATA_FREQUENCY_SIZE,
                                      packetType := 0x11,
                                      state := .READING_FREQUENCY } }, []) :=
    step_type_freq _ rfl
  have hcol := runBytes_collect p
      ({ sys with rx := { sys.rx with buffer := (sys.rx.buffer.set 0 0xAA).set 1 0x11,
                                      byteCount := 2,
                                      expectedBytes := UART_DATA_FREQUENCY_SIZE,
                                      packetType := 0x11,
                                      state := .READING_FREQUENCY } } : Sys)
      (Or.inr (Or.inl rfl))
      (by simp only [UART_DATA_FREQUENCY_SIZE, hp]; omega)
  have hread : ∀ k : Nat, 2 ≤ k → k < 25 →
      bufGet ((writeSeq ((sys.rx.buffer.set 0 0xAA).set 1 0x11) 2 p).set 25 0x55) k =
        p.getD (k - 2) 0 := by
    intro k h1 h2
    rw [bufGet_set_ne (by omega)]
    exact bufGet_writeSeq_in p _ 2 k h1 (by omega) (by simp only [List.length_set, hlen]; omega)
  rw [show freqFrame p = 0xAA :: 0x11 :: (p ++ [0x55]) from rfl]
  rw [runBytes_cons_eq _ _ _ _ _ e1, runBytes_cons_eq _ _ _ _ _ e2]
  rw [runBytes_append, hcol]
  simp only [hp]
  simp [runBytes, processIncomingByte, completePacket, parseFrequencyPacket, bytesToUint32,
    freqPointOf, rxDone, hread, bufGet_set_ne, bufGet_set_self, writeSeq_length, hlen,
    UART_DATA_END_BYTE, UART_ACK_PACKET_SIZE, CMD_SET_PGA_GAIN, CMD_SET_TIA_GAIN,
    UART_DATA_DUT_START, UART_DATA_FREQUENCY, UART_DATA_DUT_END, UART_DATA_FREQUENCY_SIZE]

lemma run_freqFrame_bad (sys : Sys) (p : List Nat) (e : Nat) (hs : Synced sys)
    (hp : p.length = 23) (he : e ≠ 0x55) :
    runBytes sys (0xAA :: 0x11 :: (p ++ [e])) =
      ({ sys with
          rx := rxDone sys.rx
            ((writeSeq ((sys.rx.buffer.set 0 0xAA).set 1 0x11) 2 p).set 25 e) 26 0x11 },
        []) := by
  obtain ⟨hst, hlen⟩ := hs
  have e1 : processIncomingByte sys 0xAA =
      ({ sys with rx := { sys.rx with buffer := sys.rx.buffer.set 0 0xAA, byteCount := 1,
                                      state := .READING_PACKET_TYPE } }, []) :=
    step_start sys hst
  have e2 : processIncomingByte
      ({ sys with rx := { sys.rx with buffer := sys.rx.buffer.set 0 0xAA, byteCount := 1,
                                      state := .READING_PACKET_TYPE } } : Sys) 0x11 =
      ({ sys with rx := { sys.rx with buffer := (sys.rx.buffer.set 0 0xAA).set 1 0x11,
                                      byteCount := 2,
                                      expectedBytes := UART_DATA_FREQUENCY_SIZE,
                                      packetType := 0x11,
                                      state := .READING_FREQUENCY } }, []) :=
    step_type_freq _ rfl
  have hcol := runBytes_collect p
      ({ sys with rx := { sys.rx with buffer := (sys.rx.buffer.set 0 0xAA).set 1 0x11,
                                      byteCount := 2,
                                      expectedBytes := UART_DATA_FREQUENCY_SIZE,
                                      packetType := 0x11,
                                      state := .READING_FREQUENCY } } : Sys)
      (Or.inr (Or.inl rfl))
      (by simp only [UART_DATA_FREQUENCY_SIZE, hp]; omega)
  rw [runBytes_cons_eq _ _ _ _ _ e1, runBytes_cons_eq _ _ _ _ _ e2]
  rw [runBytes_append, hcol]
  simp only [hp]
  simp [runBytes, processIncomingByte, completePacket, rxDone, he, bufGet_set_ne,
    bufGet_set_self, writeSeq_length, hlen, UART_DATA_END_BYTE,
    UART_DATA_FREQUENCY_SIZE]

/-! ## Command transmitter (`sendCommand`, `waitForAck`, retry loops) -/

/-- `sendCommand`: the 15-byte little-endian command packet written to the
wire (the model returns the packet; the physical write+flush is the event
carrying it). -/
def sendCommand (cmd_type data1 data2 data3 : Nat) : List Nat :=
  [UART_CMD_START_BYTE, cmd_type,
   data1 >>> 0 &&& 0xFF, data1 >>> 8 &&& 0xFF, data1 >>> 16 &&& 0xFF, data1 >>> 24 &&& 0xFF,
   data2 >>> 0 &&& 0xFF, data2 >>> 8 &&& 0xFF, data2 >>> 16 &&& 0xFF, data2 >>> 24 &&& 0xFF,
   data3 >>> 0 &&& 0xFF, data3 >>> 8 &&& 0xFF, data3 >>> 16 &&& 0xFF, data3 >>> 24 &&& 0xFF,
   UART_CMD_END_BYTE]

/-- The `volatile bool ackReceived` / `volatile uint8_t ackCmdType` pair of
file-scope flags shared between the receiver task and `waitForAck`. -/
structure AckFlags where
  ackReceived : Bool
  ackCmdType : Nat
deriving DecidableEq

/-- Effect of the receiver on the flags during one poll interval: either no
acknowledgement frame completed (`none`), or one completed with command type
`c`, in which case the receiver sets both flags (the ACK branch of
`processIncomingByte`). -/
def recordAck : Option Nat → AckFlags → AckFlags
  | none, fl => fl
  | some c, _ => { ackReceived := true, ackCmdType := c }

/-- The polling loop body of `waitForAck`: one iteration per elapsed
millisecond (`delay(1)` per pass).  Each list entry is what the receiver
recorded during that millisecond; the flag check follows each recording, and
on a match the function consumes the flag and returns true.  The source
checks before sleeping, but the first check after the entry reset can never
fire, so folding the reset-time check into the post-record check is
behavior-preserving at the model granularity of one millisecond. -/
def waitPoll (cmd : Nat) : List (Option Nat) → AckFlags → Bool × AckFlags
  | [], fl => (false, fl)
  | e :: rest, fl =>
      let fl1 := recordAck e fl
      if fl1.ackReceived = true ∧ fl1.ackCmdType = cmd then
        (true, { fl1 with ackReceived := false })
      else
        waitPoll cmd rest fl1

/-- `waitForAck(cmd_type, timeout_ms)`: clear both flags on entry, then poll
for up to `timeout_ms` milliseconds of receiver activity `env`. -/
def waitForAck (cmd timeout_ms : Nat) (fl : AckFlags) (env : List (Option Nat)) :
    Bool × AckFlags :=
  waitPoll cmd (env.take timeout_ms) { fl with ackReceived := false, ackCmdType := 0 }

/-- Observable actions of the command transmitter: writing a packet,
returning from an acknowledgement wait, and the 100 ms retry backoff. -/
inductive TxEvent where
  | send (packet : List Nat)
  | waitAck (cmd timeout : Nat) (ok : Bool)
  | backoff (ms : Nat)
deriving DecidableEq

/-- The `for (attempt = 0; attempt < 3; attempt++)` body shared by
`sendStartCommand` and `sendStopCommand`: send, wait 1000 ms for a matching
acknowledgement, return success on one, otherwise back off 100 ms and retry;
one environment list per attempt. -/
def retryLoop (cmd : Nat) (packet : List Nat) (fl : AckFlags) :
    List (List (Option Nat)) → Bool × AckFlags × List TxEvent
  | [] => (false, fl, [])
  | env :: rest =>
      let w := waitForAck cmd 1000 fl env
      if w.1 then
        (true, w.2, [.send packet, .waitAck cmd 1000 true])
      else
        let r := retryLoop cmd packet w.2 rest
        (r.1, r.2.1, .send packet :: .waitAck cmd 1000 false :: .backoff 100 :: r.2.2)

/-- `sendStartCommand(num_duts, startIDX, endIDX)`: at most 3 attempts of
sending the Start command and waiting 1000 ms for its acknowledgement. -/
def sendStartCommand (num_duts startIDX endIDX : Nat) (fl : AckFlags)
    (e1 e2 e3 : List (Option Nat)) : Bool × AckFlags × List TxEvent :=
  retryLoop CMD_START_MEASUREMENT (sendCommand CMD_START_MEASUREMENT num_duts startIDX endIDX)
    fl [e1, e2, e3]

/-- `sendStopCommand()`: at most 3 attempts of sending the Stop command and
waiting 1000 ms for its acknowledgement. -/
def sendStopCommand (fl : AckFlags) (e1 e2 e3 : List (Option Nat)) :
    Bool × AckFlags × List TxEvent :=
  retryLoop CMD_END_MEASUREMENT (sendCommand CMD_END_MEASUREMENT 0 0 0) fl [e1, e2, e3]

/-- Side effect of `sendStartCommand` on the receiver counters, before the
retry loop: record the expected DUT total and clear the completed counter
(`uint8_t` assignments). -/
def startSweep (num_duts : Nat) (sys : Sys) : Sys :=
  { sys with totalExpectedDUTs := num_duts % 256, completedDUTCount := 0 }

lemma waitPoll_nomatch (cmd : Nat) :
    ∀ (env : List (Option Nat)) (fl : AckFlags), some cmd ∉ env →
      ¬ (fl.ackReceived = true ∧ fl.ackCmdType = cmd) →
      waitPoll cmd env fl = (false, env.foldl (fun f e => recordAck e f) fl) := by
  intro env
  induction env with
  | nil => intro fl _ _; simp [waitPoll]
  | cons e rest ih =>
      intro fl hmem hfl
      match e with
      | none =>
          rw [waitPoll]
          simp only [recordAck]
          rw [if_neg hfl]
          rw [ih fl (fun hm => hmem (List.mem_cons_of_mem _ hm)) hfl]
          rfl
      | some c =>
          have hc : c ≠ cmd := by
            intro h
            exact hmem (by simp [h])
          rw [waitPoll]
          simp only [recordAck]
          rw [if_neg (by simp [hc])]
          rw [ih _ (fun hm => hmem (List.mem_cons_of_mem _ hm)) (by simp [hc])]
          rfl

lemma waitPoll_match (cmd : Nat) :
    ∀ (env : List (Option Nat)) (fl : AckFlags), some cmd ∈ env →
      ¬ (fl.ackReceived = true ∧ fl.ackCmdType = cmd) →
      (waitPoll cmd env fl).1 = true := by
  intro env
  induction env with
  | nil => intro fl hmem _; simp at hmem
  | cons e rest ih =>
      intro fl hmem hfl
      match e with
      | none =>
          rw [waitPoll]
          simp only [recordAck]
          rw [if_neg hfl]
          exact ih fl (by simpa using hmem) hfl
      | some c =>
          by_cases hc : c = cmd
          · rw [waitPoll]
            simp [recordAck, hc]
          · rw [waitPoll]
            simp only [recordAck]
            rw [if_neg (by simp [hc])]
            have hmem' : some cmd ∈ rest := by
              rcases List.mem_cons.mp hmem with h | h
              · exact absurd (Option.some.inj h.symm) hc
              · exact h
            exact ih _ hmem' (by simp [hc])

lemma waitForAck_true_iff (cmd t : Nat) (fl : AckFlags) (env : List (Option Nat)) :
    (waitForAck cmd t fl env).1 = true ↔ some cmd ∈ env.take t := by
  constructor
  · intro h
    by_contra hnm
    rw [waitForAck, waitPoll_nomatch cmd (env.take t) _ hnm (by simp)] at h
    simp at h
  · intro hmem
    exact waitPoll_match cmd (env.take t) _ hmem (by simp)

lemma retryLoop_true_iff (cmd : Nat) (P : List Nat) :
    ∀ (envs : List (List (Option Nat))) (fl : AckFlags),
      ((retryLoop cmd P fl envs).1 = true ↔ ∃ env ∈ envs, some cmd ∈ env.take 1000) := by
  intro envs
  induction envs with
  | nil => intro fl; simp [retryLoop]
  | cons env rest ih =>
      intro fl
      by_cases hw : (waitForAck cmd 1000 fl env).1 = true
      · rw [retryLoop]
        simp only []
        rw [if_pos hw]
        exact iff_of_true rfl
          ⟨env, List.mem_cons_self _ _, (waitForAck_true_iff cmd 1000 fl env).mp hw⟩
      · rw [retryLoop]
        simp only []
        rw [if_neg hw]
        simp only []
        rw [ih]
        constructor
        · rintro ⟨env2, hm, hin⟩
          exact ⟨env2, List.mem_cons_of_mem _ hm, hin⟩
        · rintro ⟨env2, hm, hin⟩
          rcases List.mem_cons.mp hm with h | h
          · subst h
            exact absurd ((waitForAck_true_iff cmd 1000 fl env2).mpr hin) hw
          · exact ⟨env2, h, hin⟩

lemma retryLoop_fail (cmd : Nat) (P : List Nat) :
    ∀ (envs : List (List (Option Nat))) (fl : AckFlags),
      (∀ env ∈ envs, some cmd ∉ env.take 1000) →
      (retryLoop cmd P fl envs).1 = false ∧
      (retryLoop cmd P fl envs).2.2 =
        envs.foldr (fun _ acc => .send P :: .waitAck cmd 1000 false :: .backoff 100 :: acc)
          [] := by
  intro envs
  induction envs with
  | nil => intro fl _; simp [retryLoop]
  | cons env rest ih =>
      intro fl hall
      have hw : ¬ (waitForAck cmd 1000 fl env).1 = true := by
        rw [waitForAck_true_iff]
        exact hall env (List.mem_cons_self _ _)
      rw [retryLoop]
      simp only []
      rw [if_neg hw]
      have := ih (waitForAck cmd 1000 fl env).2
        (fun env2 hm => hall env2 (List.mem_cons_of_mem _ hm))
      simp only []
      exact ⟨this.1, by rw [this.2]; rfl⟩

/-- C1: for both Start and Stop, the retry discipline is: the call succeeds
exactly when a matching acknowledgement is recorded within the 1000 ms wait
window of some attempt; when no matching acknowledgement is ever recorded,
the call makes exactly 3 send attempts, backing off 100 ms after each failed
wait, and returns failure. -/
theorem sendStartStop_retry_contract (nd sIDX eIDX : Nat) (fl : AckFlags)
    (e1 e2 e3 : List (Option Nat)) :
    ((sendStartCommand nd sIDX eIDX fl e1 e2 e3).1 = true ↔
      ∃ env ∈ [e1, e2, e3], some CMD_START_MEASUREMENT ∈ env.take 1000) ∧
    ((∀ env ∈ [e1, e2, e3], some CMD_START_MEASUREMENT ∉ env.take 1000) →
      (sendStartCommand nd sIDX eIDX fl e1 e2 e3).1 = false ∧
      (sendStartCommand nd sIDX eIDX fl e1 e2 e3).2.2 =
        [.send (sendCommand CMD_START_MEASUREMENT nd sIDX eIDX),
         .waitAck CMD_START_MEASUREMENT 1000 false, .backoff 100,
         .send (sendCommand CMD_START_MEASUREMENT nd sIDX eIDX),
         .waitAck CMD_START_MEASUREMENT 1000 false, .backoff 100,
         .send (sendCommand CMD_START_MEASUREMENT nd sIDX eIDX),
         .waitAck CMD_START_MEASUREMENT 1000 false, .backoff 100]) ∧
    ((sendStopCommand fl e1 e2 e3).1 = true ↔
      ∃ env ∈ [e1, e2, e3], some CMD_END_MEASUREMENT ∈ env.take 1000) ∧
    ((∀ env ∈ [e1, e2, e3], some CMD_END_MEASUREMENT ∉ env.take 1000) →
      (sendStopCommand fl e1 e2 e3).1 = false ∧
      (sendStopCommand fl e1 e2 e3).2.2 =
        [.send (sendCommand CMD_END_MEASUREMENT 0 0 0),
         .waitAck CMD_END_MEASUREMENT 1000 false, .backoff 100,
         .send (sendCommand CMD_END_MEASUREMENT 0 0 0),
         .waitAck CMD_END_MEASUREMENT 1000 false, .backoff 100,
         .send (sendCommand CMD_END_MEASUREMENT 0 0 0),
         .waitAck CMD_END_MEASUREMENT 1000 false, .backoff 100]) := by
  refine ⟨retryLoop_true_iff _ _ _ _, fun hall => ?_, retryLoop_true_iff _ _ _ _,
    fun hall => ?_⟩
  · have h := retryLoop_fail CMD_START_MEASUREMENT
      (sendCommand CMD_START_MEASUREMENT nd sIDX eIDX) [e1, e2, e3] fl hall
    exact ⟨h.1, by rw [show (sendStartCommand nd sIDX eIDX fl e1 e2 e3).2.2 =
      (retryLoop CMD_START_MEASUREMENT (sendCommand CMD_START_MEASUREMENT nd sIDX eIDX)
        fl [e1, e2, e3]).2.2 from rfl, h.2]; rfl⟩
  · have h := retryLoop_fail CMD_END_MEASUREMENT (sendCommand CMD_END_MEASUREMENT 0 0 0)
      [e1, e2, e3] fl hall
    exact ⟨h.1, by rw [show (sendStopCommand fl e1 e2 e3).2.2 =
      (retryLoop CMD_END_MEASUREMENT (sendCommand CMD_END_MEASUREMENT 0 0 0)
        fl [e1, e2, e3]).2.2 from rfl, h.2]; rfl⟩

/-- Witness for `sendStartStop_retry_contract` with 4 DUTs, empty
acknowledgement environments (no acknowledgement ever recorded). -/
theorem sendStartStop_retry_contract_witness :
    ((sendStartCommand 4 0 3 ⟨false, 0⟩ [] [] []).1 = true ↔
      ∃ env ∈ [([] : List (Option Nat)), [], []], some CMD_START_MEASUREMENT ∈ env.take 1000) ∧
    ((∀ env ∈ [([] : List (Option Nat)), [], []], some CMD_START_MEASUREMENT ∉ env.take 1000) →
      (sendStartCommand 4 0 3 ⟨false, 0⟩ [] [] []).1 = false ∧
      (sendStartCommand 4 0 3 ⟨false, 0⟩ [] [] []).2.2 =
        [.send (sendCommand CMD_START_MEASUREMENT 4 0 3),
         .waitAck CMD_START_MEASUREMENT 1000 false, .backoff 100,
         .send (sendCommand CMD_START_MEASUREMENT 4 0 3),
         .waitAck CMD_START_MEASUREMENT 1000 false, .backoff 100,
         .send (sendCommand CMD_START_MEASUREMENT 4 0 3),
         .waitAck CMD_START_MEASUREMENT 1000 false, .backoff 100]) ∧
    ((sendStopCommand ⟨false, 0⟩ [] [] []).1 = true ↔
      ∃ env ∈ [([] : List (Option Nat)), [], []], some CMD_END_MEASUREMENT ∈ env.take 1000) ∧
    ((∀ env ∈ [([] : List (Option Nat)), [], []], some CMD_END_MEASUREMENT ∉ env.take 1000) →
      (sendStopCommand ⟨false, 0⟩ [] [] []).1 = false ∧
      (sendStopCommand ⟨false, 0⟩ [] [] []).2.2 =
        [.send (sendCommand CMD_END_MEASUREMENT 0 0 0),
         .waitAck CMD_END_MEASUREMENT 1000 false, .backoff 100,
         .send (sendCommand CMD_END_MEASUREMENT 0 0 0),
         .waitAck CMD_END_MEASUREMENT 1000 false, .backoff 100,
         .send (sendCommand CMD_END_MEASUREMENT 0 0 0),
         .waitAck CMD_END_MEASUREMENT 1000 false, .backoff 100]) :=
  sendStartStop_retry_contract 4 0 3 ⟨false, 0⟩ [] [] []

/-- C10: `waitForAck` clears the pending-acknowledgement flag on entry, so
its outcome is independent of previously recorded flags and it returns true
exactly when a matching acknowledgement is recorded during the wait window;
on timeout the flags are exactly the fold of the recordings over the cleared
state, so a non-matching recorded acknowledgement is left unconsumed. -/
theorem waitForAck_contract (cmd t : Nat) (fl fl' : AckFlags) (env : List (Option Nat)) :
    ((waitForAck cmd t fl env).1 = true ↔ some cmd ∈ env.take t) ∧
    waitForAck cmd t fl env = waitForAck cmd t fl' env ∧
    ((waitForAck cmd t fl env).1 = false →
      (waitForAck cmd t fl env).2 =
        (env.take t).foldl (fun f e => recordAck e f) { ackReceived := false, ackCmdType := 0 }) := by
  refine ⟨waitForAck_true_iff cmd t fl env, rfl, fun hf => ?_⟩
  have hnm : some cmd ∉ env.take t := by
    intro hm
    rw [(waitForAck_true_iff cmd t fl env).mpr hm] at hf
    simp at hf
  rw [waitForAck, waitPoll_nomatch cmd (env.take t) _ hnm (by simp)]

/-- Witness for `waitForAck_contract`: a pre-recorded matching flag pair and
a window recording a non-matching then a matching acknowledgement. -/
theorem waitForAck_contract_witness :
    ((waitForAck 3 1000 ⟨true, 3⟩ [some 2, some 3]).1 = true ↔
      some 3 ∈ ([some 2, some 3] : List (Option Nat)).take 1000) ∧
    waitForAck 3 1000 ⟨true, 3⟩ [some 2, some 3] =
      waitForAck 3 1000 ⟨false, 0⟩ [some 2, some 3] ∧
    ((waitForAck 3 1000 ⟨true, 3⟩ [some 2, some 3]).1 = false →
      (waitForAck 3 1000 ⟨true, 3⟩ [some 2, some 3]).2 =
        (([some 2, some 3] : List (Option Nat)).take 1000).foldl
          (fun f e => recordAck e f) { ackReceived := false, ackCmdType := 0 }) :=
  waitForAck_contract 3 1000 ⟨true, 3⟩ ⟨false, 0⟩ [some 2, some 3]

/-! ## Claim theorems about the receiver -/

lemma bufGet_freqFrame (p : List Nat) (k : Nat) (hp : p.length = 23) (h1 : 2 ≤ k)
    (h2 : k < 25) : bufGet (freqFrame p) k = p.getD (k - 2) 0 := by
  obtain ⟨k', rfl⟩ : ∃ k', k = k' + 2 := ⟨k - 2, by omega⟩
  unfold freqFrame bufGet
  simp only [List.getD_cons_succ]
  simp [List.getD_eq_getElem?_getD, List.getElem?_append, show k' < p.length by omega]

lemma normPhase_eq_self {x : ℚ} (h : |x| ≤ 180) : normPhase x = x := by
  rw [abs_le] at h
  unfold normPhase
  rw [if_neg (not_lt.mpr h.2), if_neg (not_lt.mpr h.1)]

/-- C2 (amended): a well-formed 26-byte FrequencySamplePacket whose four
analog words are finite binary32 bit patterns and whose exact phase
difference is itself a binary32 value of magnitude at most 180 — the regime
in which the program's float subtraction and normalization loops perform no
rounding and no iterations, so the exact-rational receiver model coincides
with the program — decodes into exactly one enqueued MeasurementPoint whose
frequency is the little-endian u32 at frame bytes 2-5, whose voltage and
current magnitudes carry the exact values of the IEEE-754 binary32 bit
patterns at frame bytes 6-9 and 14-17 (not scaled integers divided by 1000),
whose single phase field is the difference of the binary32 phase values at
frame bytes 10-13 and 18-21 (individual phases are not carried), and whose
PGA gain, TIA gain and validity flag come from frame bytes 22, 23 and 24. -/
theorem freqFrame_decodes (sys : Sys) (p : List Nat) (hs : Synced sys)
    (hp : p.length = 23)
    (hm1 : IsFiniteF32 (le32 (p.getD 4 0) (p.getD 5 0) (p.getD 6 0) (p.getD 7 0)))
    (hm2 : IsFiniteF32 (le32 (p.getD 12 0) (p.getD 13 0) (p.getD 14 0) (p.getD 15 0)))
    (hq1 : IsFiniteF32 (le32 (p.getD 8 0) (p.getD 9 0) (p.getD 10 0) (p.getD 11 0)))
    (hq2 : IsFiniteF32 (le32 (p.getD 16 0) (p.getD 17 0) (p.getD 18 0) (p.getD 19 0)))
    (hrep : IsRepF32 (b32toQ (le32 (p.getD 8 0) (p.getD 9 0) (p.getD 10 0) (p.getD 11 0)) -
      b32toQ (le32 (p.getD 16 0) (p.getD 17 0) (p.getD 18 0) (p.getD 19 0))))
    (hbound : |b32toQ (le32 (p.getD 8 0) (p.getD 9 0) (p.getD 10 0) (p.getD 11 0)) -
      b32toQ (le32 (p.getD 16 0) (p.getD 17 0) (p.getD 18 0) (p.getD 19 0))| ≤ 180) :
    (runBytes sys (freqFrame p)).2 = [.enqueueSample (freqPointOf p)] ∧
    (freqPointOf p).freq_hz =
      le32 (bufGet (freqFrame p) 2) (bufGet (freqFrame p) 3) (bufGet (freqFrame p) 4)
        (bufGet (freqFrame p) 5) ∧
    (freqPointOf p).V_magnitude =
      b32toQ (le32 (bufGet (freqFrame p) 6) (bufGet (freqFrame p) 7) (bufGet (freqFrame p) 8)
        (bufGet (freqFrame p) 9)) ∧
    (freqPointOf p).I_magnitude =
      b32toQ (le32 (bufGet (freqFrame p) 14) (bufGet (freqFrame p) 15)
        (bufGet (freqFrame p) 16) (bufGet (freqFrame p) 17)) ∧
    (freqPointOf p).phase_deg =
      b32toQ (le32 (bufGet (freqFrame p) 10) (bufGet (freqFrame p) 11)
          (bufGet (freqFrame p) 12) (bufGet (freqFrame p) 13)) -
        b32toQ (le32 (bufGet (freqFrame p) 18) (bufGet (freqFrame p) 19)
          (bufGet (freqFrame p) 20) (bufGet (freqFrame p) 21)) ∧
    (freqPointOf p).pga_gain = bufGet (freqFrame p) 22 ∧
    (freqPointOf p).tia_gain = (bufGet (freqFrame p) 23 == 1) ∧
    (freqPointOf p).valid = (bufGet (freqFrame p) 24 == 1) := by
  simp only [List.getD_eq_getElem?_getD] at hbound
  refine ⟨?_, ?_, ?_, ?_, ?_, ?_, ?_, ?_⟩ <;>
    simp [run_freqFrame sys p hs hp, freqPointOf, normPhase_eq_self hbound,
      fun k h1 h2 => bufGet_freqFrame p k hp h1 h2]

/-- Witness for `freqFrame_decodes` on the all-zero payload from the initial
state. -/
theorem freqFrame_decodes_witness :
    (runBytes initSys (freqFrame (List.replicate 23 0))).2 =
      [.enqueueSample (freqPointOf (List.replicate 23 0))] ∧
    (freqPointOf (List.replicate 23 0)).freq_hz =
      le32 (bufGet (freqFrame (List.replicate 23 0)) 2)
        (bufGet (freqFrame (List.replicate 23 0)) 3)
        (bufGet (freqFrame (List.replicate 23 0)) 4)
        (bufGet (freqFrame (List.replicate 23 0)) 5) := by
  have hz1 : le32 ((List.replicate 23 0).getD 8 0) ((List.replicate 23 0).getD 9 0)
      ((List.replicate 23 0).getD 10 0) ((List.replicate 23 0).getD 11 0) = 0 := by decide
  have hz2 : le32 ((List.replicate 23 0).getD 16 0) ((List.replicate 23 0).getD 17 0)
      ((List.replicate 23 0).getD 18 0) ((List.replicate 23 0).getD 19 0) = 0 := by decide
  have h := freqFrame_decodes initSys (List.replicate 23 0) ⟨rfl, by decide⟩ (by decide)
    (by decide) (by decide) (by decide) (by decide)
    (by rw [hz1, hz2]; simp [IsRepF32, b32toQ, roundF32])
    (by rw [hz1, hz2]; simp [b32toQ])
  exact ⟨h.1, h.2.1⟩

/-- The FrequencySamplePacket of the specification scenario: 1 Hz, voltage
magnitude word 1000, current magnitude word 100, zero phases, PGA gain 3,
high TIA gain, valid. -/
def cexPayload : List Nat :=
  [0x01, 0x00, 0x00, 0x00, 0xE8, 0x03, 0x00, 0x00, 0x00, 0x00, 0x00, 0x00,
   0x64, 0x00, 0x00, 0x00, 0x00, 0x00, 0x00, 0x00, 0x03, 0x00, 0x01]

/-- Counterexample to C2 as stated: on the specification scenario frame, the
decoded voltage magnitude is the value of the binary32 bit pattern 1000
(about 1.4e-42), not the little-endian u32 at frame bytes 6-9 divided by
1000 (which is 1). -/
theorem freqFrame_not_scaled_counterexample :
    (runBytes initSys (freqFrame cexPayload)).2 =
      [.enqueueSample (freqPointOf cexPayload)] ∧
    (freqPointOf cexPayload).V_magnitude ≠
      ((bytesToUint32 (freqFrame cexPayload) 6 : Nat) : ℚ) / 1000 := by
  constructor
  · rw [run_freqFrame initSys cexPayload ⟨rfl, by decide⟩ (by decide)]
  · have h1 : (freqPointOf cexPayload).V_magnitude = b32toQ 1000 := by
      have hw : le32 (cexPayload.getD 4 0) (cexPayload.getD 5 0) (cexPayload.getD 6 0)
          (cexPayload.getD 7 0) = 1000 := by decide
      simp only [freqPointOf]
      rw [hw]
    have h2 : bytesToUint32 (freqFrame cexPayload) 6 = 1000 := by decide
    rw [h1, h2]
    simp only [b32toQ]
    norm_num

lemma phaseLoop_stuck (x : F32) (hfix : phaseLoopStep x = x) (hgt : f32gt x 180 = true) :
    ∀ n : Nat, f32gt (phaseLoopStep^[n] x) 180 = true := by
  intro n
  rw [Function.iterate_fixed hfix n]
  exact hgt

/-- Frequency payload with valid byte 0 whose voltage-phase word is the
+infinity bit pattern `0x7F800000` and whose current-phase word is 0. -/
def cexInfPayload : List Nat :=
  [0x00, 0x00, 0x00, 0x00, 0x00, 0x00, 0x00, 0x00, 0x00, 0x00, 0x80, 0x7F,
   0x00, 0x00, 0x00, 0x00, 0x00, 0x00, 0x00, 0x00, 0x00, 0x00, 0x00]

/-- Counterexample to C7 as stated: on the well-formed frame with valid byte
0 whose voltage-phase word is `0x7F800000` (+infinity) and current-phase
word 0, the program computes `phase_diff = +inf`; the body of the first
normalization loop in `parseFrequencyPacket` leaves that value unchanged
while the loop guard holds, so (by `phaseLoop_stuck`) the loop never exits,
the enqueue is never reached, and the machine never returns to
`WAITING_START` — the zero-valid frame does prevent the enqueue attempt. -/
theorem freq_invalid_enqueue_counterexample :
    bufGet (freqFrame cexInfPayload) 24 = 0 ∧
    bytesToUint32 (freqFrame cexInfPayload) 10 = 0x7F800000 ∧
    bytesToUint32 (freqFrame cexInfPayload) 18 = 0 ∧
    f32ofBits 0x7F800000 = F32.inf false ∧
    f32sub (f32ofBits 0x7F800000) (f32ofBits 0) = F32.inf false ∧
    phaseLoopStep (F32.inf false) = F32.inf false ∧
    f32gt (F32.inf false) 180 = true :=
  ⟨by decide, by decide, by decide, by decide, by decide, by decide, by decide⟩

/-- C7 (amended): a well-formed FrequencySamplePacket with valid byte 0
whose phase computation provably terminates without rounding (finite phase
words with a binary32-representable difference of magnitude at most 180) is
decoded and enqueued exactly like a valid one — exactly one enqueue attempt,
carrying a sample with `valid = false`, no error path, and the receiver
returns to `WAITING_START`. -/
theorem freqFrame_invalid_still_enqueued (sys : Sys) (p : List Nat) (hs : Synced sys)
    (hp : p.length = 23) (hv : p.getD 22 0 = 0)
    (hq1 : IsFiniteF32 (le32 (p.getD 8 0) (p.getD 9 0) (p.getD 10 0) (p.getD 11 0)))
    (hq2 : IsFiniteF32 (le32 (p.getD 16 0) (p.getD 17 0) (p.getD 18 0) (p.getD 19 0)))
    (hrep : IsRepF32 (b32toQ (le32 (p.getD 8 0) (p.getD 9 0) (p.getD 10 0) (p.getD 11 0)) -
      b32toQ (le32 (p.getD 16 0) (p.getD 17 0) (p.getD 18 0) (p.getD 19 0))))
    (hbound : |b32toQ (le32 (p.getD 8 0) (p.getD 9 0) (p.getD 10 0) (p.getD 11 0)) -
      b32toQ (le32 (p.getD 16 0) (p.getD 17 0) (p.getD 18 0) (p.getD 19 0))| ≤ 180) :
    (∃ pt, (runBytes sys (freqFrame p)).2 = [.enqueueSample pt] ∧ pt.valid = false) ∧
    (runBytes sys (freqFrame p)).1.rx.state = .WAITING_START ∧
    (runBytes sys (freqFrame p)).1.rx.buffer.length = 32 := by
  obtain ⟨hst, hlen⟩ := hs
  rw [run_freqFrame sys p ⟨hst, hlen⟩ hp]
  refine ⟨⟨freqPointOf p, rfl, ?_⟩, rfl, ?_⟩
  · simp only [freqPointOf]
    rw [hv]
    rfl
  · simp [rxDone, writeSeq_length, hlen]

/-- Witness for `freqFrame_invalid_still_enqueued` on the all-zero payload
(valid byte 0, zero phase words) from the initial state. -/
theorem freqFrame_invalid_still_enqueued_witness :
    (∃ pt, (runBytes initSys (freqFrame (List.replicate 23 0))).2 =
      [.enqueueSample pt] ∧ pt.valid = false) ∧
    (runBytes initSys (freqFrame (List.replicate 23 0))).1.rx.state = .WAITING_START ∧
    (runBytes initSys (freqFrame (List.replicate 23 0))).1.rx.buffer.length = 32 := by
  have hz1 : le32 ((List.replicate 23 0).getD 8 0) ((List.replicate 23 0).getD 9 0)
      ((List.replicate 23 0).getD 10 0) ((List.replicate 23 0).getD 11 0) = 0 := by decide
  have hz2 : le32 ((List.replicate 23 0).getD 16 0) ((List.replicate 23 0).getD 17 0)
      ((List.replicate 23 0).getD 18 0) ((List.replicate 23 0).getD 19 0) = 0 := by decide
  exact freqFrame_invalid_still_enqueued initSys (List.replicate 23 0) ⟨rfl, by decide⟩
    (by decide) (by decide) (by decide) (by decide)
    (by rw [hz1, hz2]; simp [IsRepF32, b32toQ, roundF32])
    (by rw [hz1, hz2]; simp [b32toQ])

/-- C5: an accepted DutEndPacket carrying DUT number `d` (within a sweep
whose completed counter has not saturated) increments the completed-DUT
counter by exactly one, signals the per-DUT completion event with index
`d - 1`, and additionally signals sweep completion exactly when the counter
reaches (or exceeds) the expected total recorded by the most recent start
command. -/
theorem dutEnd_completion (sys : Sys) (d : Nat) (hs : Synced sys) (hd1 : 1 ≤ d)
    (hd2 : d ≤ 255) (hcnt : sys.completedDUTCount < 255) :
    (runBytes sys (dutEndFrame d)).1.completedDUTCount = sys.completedDUTCount + 1 ∧
    (runBytes sys (dutEndFrame d)).1.completedDUTIndex = d - 1 ∧
    (runBytes sys (dutEndFrame d)).2 =
      .dutComplete (d - 1) ::
        (if sys.totalExpectedDUTs ≤ sys.completedDUTCount + 1 then [.sweepComplete]
         else []) := by
  rw [run_dutEndFrame sys d hs]
  have hidx : (d + 255) % 256 = d - 1 := by omega
  have hc : (sys.completedDUTCount + 1) % 256 = sys.completedDUTCount + 1 := by omega
  refine ⟨by simp [hc], by simp [hidx], ?_⟩
  rw [hidx, hc]
  by_cases hq : sys.totalExpectedDUTs ≤ sys.completedDUTCount + 1
  · rw [if_pos hq, if_pos hq]
  · rw [if_neg hq, if_neg hq]

/-- Witness for `dutEnd_completion`: DUT 1 completing in a sweep started with
`startSweep 1` (one expected DUT) fires both completion events. -/
theorem dutEnd_completion_witness :
    (runBytes (startSweep 1 initSys) (dutEndFrame 1)).1.completedDUTCount =
      (startSweep 1 initSys).completedDUTCount + 1 ∧
    (runBytes (startSweep 1 initSys) (dutEndFrame 1)).1.completedDUTIndex = 1 - 1 ∧
    (runBytes (startSweep 1 initSys) (dutEndFrame 1)).2 =
      .dutComplete (1 - 1) ::
        (if (startSweep 1 initSys).totalExpectedDUTs ≤
            (startSweep 1 initSys).completedDUTCount + 1 then [.sweepComplete]
         else []) :=
  dutEnd_completion (startSweep 1 initSys) 1 ⟨rfl, by decide⟩ (by decide) (by decide)
    (by decide)

/-- C6: `sendCommand` encodes a 15-byte frame `0xAA, cmd, three little-endian
u32 fields, 0x55`, and feeding the receiver the matching 4-byte
acknowledgement `0xAA, cmd, 0x01, 0x55` records an acknowledgement whose
command type equals the packet byte at index 1 — the command type survives
the round trip. -/
theorem command_ack_roundtrip (sys : Sys) (c d1 d2 d3 : Nat) (hs : Synced sys)
    (hc1 : 1 ≤ c) (hc5 : c ≤ 5) :
    (sendCommand c d1 d2 d3).length = UART_CMD_PACKET_SIZE ∧
    sendCommand c d1 d2 d3 =
      [0xAA, c] ++
        [d1 &&& 0xFF, d1 >>> 8 &&& 0xFF, d1 >>> 16 &&& 0xFF, d1 >>> 24 &&& 0xFF] ++
        [d2 &&& 0xFF, d2 >>> 8 &&& 0xFF, d2 >>> 16 &&& 0xFF, d2 >>> 24 &&& 0xFF] ++
        [d3 &&& 0xFF, d3 >>> 8 &&& 0xFF, d3 >>> 16 &&& 0xFF, d3 >>> 24 &&& 0xFF] ++
        [0x55] ∧
    (runBytes sys (ackFrame c 0x01)).1.ackReceived = true ∧
    (runBytes sys (ackFrame c 0x01)).1.ackCmdType = (sendCommand c d1 d2 d3).getD 1 0 := by
  refine ⟨rfl, by simp [sendCommand, UART_CMD_START_BYTE, UART_CMD_END_BYTE], ?_, ?_⟩ <;>
    rw [run_ackFrame sys c 0x01 hs hc1 hc5] <;> simp [sendCommand]

/-- Witness for `command_ack_roundtrip` at the Start command with the
scenario arguments. -/
theorem command_ack_roundtrip_witness :
    (sendCommand 3 4 0 3).length = UART_CMD_PACKET_SIZE ∧
    sendCommand 3 4 0 3 =
      [0xAA, 3] ++
        [4 &&& 0xFF, 4 >>> 8 &&& 0xFF, 4 >>> 16 &&& 0xFF, 4 >>> 24 &&& 0xFF] ++
        [0 &&& 0xFF, 0 >>> 8 &&& 0xFF, 0 >>> 16 &&& 0xFF, 0 >>> 24 &&& 0xFF] ++
        [3 &&& 0xFF, 3 >>> 8 &&& 0xFF, 3 >>> 16 &&& 0xFF, 3 >>> 24 &&& 0xFF] ++
        [0x55] ∧
    (runBytes initSys (ackFrame 3 0x01)).1.ackReceived = true ∧
    (runBytes initSys (ackFrame 3 0x01)).1.ackCmdType = (sendCommand 3 4 0 3).getD 1 0 :=
  command_ack_roundtrip initSys 3 4 0 3 ⟨rfl, by decide⟩ (by decide) (by decide)

/-! ## Aborted frames and resynchronization -/

/-- The two abort shapes of the receiver: a frame killed at the type byte by
an unrecognized tag, and a complete frame of a recognized tag whose final
byte is not `0x55`. -/
def IsAbortedFrame (B : List Nat) : Prop :=
  (∃ t, ¬ (CMD_SET_PGA_GAIN ≤ t ∧ t ≤ CMD_SET_TIA_GAIN) ∧ t ≠ 0x10 ∧ t ≠ 0x11 ∧
    t ≠ 0x12 ∧ B = [0xAA, t]) ∨
  (∃ c a e, CMD_SET_PGA_GAIN ≤ c ∧ c ≤ CMD_SET_TIA_GAIN ∧ e ≠ 0x55 ∧
    B = [0xAA, c, a, e]) ∨
  (∃ d n r1 r2 e, e ≠ 0x55 ∧ B = [0xAA, 0x10, d, n, r1, r2, e]) ∨
  (∃ p e, p.length = 23 ∧ e ≠ 0x55 ∧ B = 0xAA :: 0x11 :: (p ++ [e])) ∨
  (∃ d e, e ≠ 0x55 ∧ B = [0xAA, 0x12, d, e])

/-- The four well-formed frame shapes accepted by the receiver. -/
def IsWellFormedFrame (F : List Nat) : Prop :=
  (∃ c a, CMD_SET_PGA_GAIN ≤ c ∧ c ≤ CMD_SET_TIA_GAIN ∧ F = ackFrame c a) ∨
  (∃ d n r1 r2, F = dutStartFrame d n r1 r2) ∨
  (∃ p, p.length = 23 ∧ F = freqFrame p) ∨
  (∃ d, F = dutEndFrame d)

lemma run_aborted (sys : Sys) (B : List Nat) (hs : Synced sys) (hb : IsAbortedFrame B) :
    (runBytes sys B).2 = [] ∧
    Synced (runBytes sys B).1 ∧
    (runBytes sys B).1.ackReceived = sys.ackReceived ∧
    (runBytes sys B).1.ackCmdType = sys.ackCmdType ∧
    (runBytes sys B).1.completedDUTIndex = sys.completedDUTIndex ∧
    (runBytes sys B).1.completedDUTCount = sys.completedDUTCount ∧
    (runBytes sys B).1.totalExpectedDUTs = sys.totalExpectedDUTs := by
  obtain ⟨hst, hlen⟩ := hs
  rcases hb with ⟨t, h5, h10, h11, h12, rfl⟩ | ⟨c, a, e, hc1, hc5, he, rfl⟩ |
    ⟨d, n, r1, r2, e, he, rfl⟩ | ⟨p, e, hp, he, rfl⟩ | ⟨d, e, he, rfl⟩
  · rw [run_unknownTag sys t ⟨hst, hlen⟩ h5 h10 h11 h12]
    exact ⟨rfl, ⟨rfl, by simp [hlen]⟩, rfl, rfl, rfl, rfl, rfl⟩
  · rw [run_ackFrame_bad sys c a e ⟨hst, hlen⟩ hc1 hc5 he]
    exact ⟨rfl, ⟨rfl, by simp [rxDone, hlen]⟩, rfl, rfl, rfl, rfl, rfl⟩
  · rw [run_dutStartFrame_bad sys d n r1 r2 e ⟨hst, hlen⟩ he]
    exact ⟨rfl, ⟨rfl, by simp [rxDone, hlen]⟩, rfl, rfl, rfl, rfl, rfl⟩
  · rw [run_freqFrame_bad sys p e ⟨hst, hlen⟩ hp he]
    exact ⟨rfl, ⟨rfl, by simp [rxDone, writeSeq_length, hlen]⟩, rfl, rfl, rfl, rfl, rfl⟩
  · rw [run_dutEndFrame_bad sys d e ⟨hst, hlen⟩ he]
    exact ⟨rfl, ⟨rfl, by simp [rxDone, hlen]⟩, rfl, rfl, rfl, rfl, rfl⟩

lemma run_wellformed_events (F : List Nat) (sys1 sys2 : Sys) (hs1 : Synced sys1)
    (hs2 : Synced sys2) (hcnt : sys1.completedDUTCount = sys2.completedDUTCount)
    (htot : sys1.totalExpectedDUTs = sys2.totalExpectedDUTs)
    (hf : IsWellFormedFrame F) :
    (runBytes sys1 F).2 = (runBytes sys2 F).2 := by
  rcases hf with ⟨c, a, hc1, hc5, rfl⟩ | ⟨d, n, r1, r2, rfl⟩ | ⟨p, hp, rfl⟩ | ⟨d, rfl⟩
  · rw [run_ackFrame sys1 c a hs1 hc1 hc5, run_ackFrame sys2 c a hs2 hc1 hc5]
  · rw [run_dutStartFrame sys1 d n r1 r2 hs1, run_dutStartFrame sys2 d n r1 r2 hs2]
  · rw [run_freqFrame sys1 p hs1 hp, run_freqFrame sys2 p hs2 hp]
  · rw [run_dutEndFrame sys1 d hs1, run_dutEndFrame sys2 d hs2, hcnt, htot]

/-- C3: a frame aborted by an unrecognized tag, or completed with a final
byte other than `0x55`, emits no sample and no completion event, records no
acknowledgement, leaves the completion counters untouched, returns the state
machine to `WAITING_START`, and a well-formed frame following immediately
after produces exactly the events it would produce on its own. -/
theorem aborted_frame_resync (sys : Sys) (B F : List Nat) (hs : Synced sys)
    (hb : IsAbortedFrame B) (hf : IsWellFormedFrame F) :
    (runBytes sys B).2 = [] ∧
    (runBytes sys B).1.rx.state = .WAITING_START ∧
    (runBytes sys B).1.ackReceived = sys.ackReceived ∧
    (runBytes sys B).1.ackCmdType = sys.ackCmdType ∧
    (runBytes sys B).1.completedDUTIndex = sys.completedDUTIndex ∧
    (runBytes sys B).1.completedDUTCount = sys.completedDUTCount ∧
    (runBytes sys (B ++ F)).2 = (runBytes sys F).2 := by
  obtain ⟨hev, hsync, hack, hackty, hidx, hcnt, htot⟩ := run_aborted sys B hs hb
  refine ⟨hev, hsync.1, hack, hackty, hidx, hcnt, ?_⟩
  rw [runBytes_append]
  simp only [hev, List.nil_append]
  exact run_wellformed_events F (runBytes sys B).1 sys hsync hs hcnt htot hf

/-- Witness for `aborted_frame_resync`: the unknown tag `0x99` followed by a
well-formed DutStart frame for DUT 1, from the initial state. -/
theorem aborted_frame_resync_witness :
    (runBytes initSys [0xAA, 0x99]).2 = [] ∧
    (runBytes initSys [0xAA, 0x99]).1.rx.state = .WAITING_START ∧
    (runBytes initSys [0xAA, 0x99]).1.ackReceived = initSys.ackReceived ∧
    (runBytes initSys [0xAA, 0x99]).1.ackCmdType = initSys.ackCmdType ∧
    (runBytes initSys [0xAA, 0x99]).1.completedDUTIndex = initSys.completedDUTIndex ∧
    (runBytes initSys [0xAA, 0x99]).1.completedDUTCount = initSys.completedDUTCount ∧
    (runBytes initSys ([0xAA, 0x99] ++ dutStartFrame 1 2 0 0)).2 =
      (runBytes initSys (dutStartFrame 1 2 0 0)).2 :=
  aborted_frame_resync initSys [0xAA, 0x99] (dutStartFrame 1 2 0 0) ⟨rfl, by decide⟩
    (Or.inl ⟨0x99, by decide, by decide, by decide, by decide, rfl⟩)
    (Or.inr (Or.inl ⟨1, 2, 0, 0, rfl⟩))

/-! ## Reachability and scratch-buffer safety -/

/-- States of the whole receiver module reachable from `initUART` by feeding
arbitrary bytes. -/
inductive Reach : Sys → Prop where
  | init : Reach initSys
  | step (s : Sys) (b : Nat) : Reach s → Reach (processIncomingByte s b).1

/-- Inductive invariant of the receiver: the scratch buffer keeps its 32-byte
size; in `READING_PACKET_TYPE` exactly one byte is stored; in the three
payload states the expected length is one of 4, 7 or 26 and strictly bounds
the byte count. -/
def RxInv (sys : Sys) : Prop :=
  sys.rx.buffer.length = 32 ∧
  (sys.rx.state = .READING_PACKET_TYPE → sys.rx.byteCount = 1) ∧
  (PayloadState sys.rx.state →
    2 ≤ sys.rx.byteCount ∧ sys.rx.byteCount < sys.rx.expectedBytes ∧
    (sys.rx.expectedBytes = 4 ∨ sys.rx.expectedBytes = 7 ∨ sys.rx.expectedBytes = 26))

lemma completePacket_rx_buffer (sys : Sys) :
    (completePacket sys).1.rx.buffer = sys.rx.buffer := by
  dsimp only [completePacket]
  split_ifs <;> rfl

lemma RxInv_init : RxInv initSys := by
  refine ⟨by decide, fun h => by simp [initSys, initRx] at h, fun h => ?_⟩
  rcases h with h | h | h <;> simp [initSys, initRx] at h

lemma RxInv_step (sys : Sys) (b : Nat) (h : RxInv sys) :
    RxInv (processIncomingByte sys b).1 := by
  obtain ⟨hlen, hpt, hps⟩ := h
  have hpayload : PayloadState sys.rx.state →
      RxInv (processIncomingByte sys b).1 := by
    intro hp
    obtain ⟨h2le, hlt, hset⟩ := hps hp
    have hstep : processIncomingByte sys b =
        (let rx1 : UARTRxContext :=
          { sys.rx with buffer := sys.rx.buffer.set sys.rx.byteCount b,
                        byteCount := sys.rx.byteCount + 1 }
         if rx1.expectedBytes ≤ rx1.byteCount then
          (let step :=
            if bufGet rx1.buffer (rx1.byteCount - 1) = UART_DATA_END_BYTE then
              completePacket { sys with rx := rx1 }
            else ({ sys with rx := rx1 }, [])
           ({ step.1 with rx := { step.1.rx with state := .WAITING_START, byteCount := 0 } },
            step.2))
         else ({ sys with rx := rx1 }, [])) := by
      rcases hp with hst | hst | hst <;> simp only [processIncomingByte, hst]
    rw [hstep]
    simp only []
    by_cases hc : sys.rx.expectedBytes ≤ sys.rx.byteCount + 1
    · rw [if_pos hc]
      by_cases hend : bufGet (sys.rx.buffer.set sys.rx.byteCount b)
          (sys.rx.byteCount + 1 - 1) = UART_DATA_END_BYTE
      · rw [if_pos hend]
        refine ⟨?_, fun hx => by simp at hx, fun hx => ?_⟩
        · simp only []
          rw [completePacket_rx_buffer]
          simp [hlen]
        · rcases hx with hx | hx | hx <;> simp at hx
      · rw [if_neg hend]
        refine ⟨by simp [hlen], fun hx => by simp at hx, fun hx => ?_⟩
        rcases hx with hx | hx | hx <;> simp at hx
    · rw [if_neg hc]
      refine ⟨by simp [hlen], fun hx => ?_, fun _ => ⟨by simp only []; omega, by simp only []; omega, hset⟩⟩
      rcases hp with hst | hst | hst <;> rw [hst] at hx <;> simp at hx
  cases hst : sys.rx.state with
  | WAITING_START =>
      simp only [processIncomingByte, hst]
      by_cases hb : b = UART_DATA_START_BYTE
      · rw [if_pos hb]
        refine ⟨by simp [hlen], fun _ => rfl, fun hx => ?_⟩
        rcases hx with hx | hx | hx <;> simp at hx
      · rw [if_neg hb]
        exact ⟨hlen, hpt, hps⟩
  | READING_PACKET_TYPE =>
      simp only [processIncomingByte, hst]
      by_cases h1 : CMD_SET_PGA_GAIN ≤ b ∧ b ≤ CMD_SET_TIA_GAIN
      · rw [if_pos h1]
        exact ⟨by simp [hlen], fun hx => by simp at hx,
          fun _ => ⟨by simp, by simp [UART_ACK_PACKET_SIZE], by simp [UART_ACK_PACKET_SIZE]⟩⟩
      · rw [if_neg h1]
        by_cases h2 : b = UART_DATA_DUT_START
        · rw [if_pos h2]
          exact ⟨by simp [hlen], fun hx => by simp at hx,
            fun _ => ⟨by simp, by simp [UART_DATA_DUT_START_SIZE],
              by simp [UART_DATA_DUT_START_SIZE]⟩⟩
        · rw [if_neg h2]
          by_cases h3 : b = UART_DATA_FREQUENCY
          · rw [if_pos h3]
            exact ⟨by simp [hlen], fun hx => by simp at hx,
              fun _ => ⟨by simp, by simp [UART_DATA_FREQUENCY_SIZE],
                by simp [UART_DATA_FREQUENCY_SIZE]⟩⟩
          · rw [if_neg h3]
            by_cases h4 : b = UART_DATA_DUT_END
            · rw [if_pos h4]
              exact ⟨by simp [hlen], fun hx => by simp at hx,
                fun _ => ⟨by simp, by simp [UART_DATA_DUT_END_SIZE],
                  by simp [UART_DATA_DUT_END_SIZE]⟩⟩
            · rw [if_neg h4]
              refine ⟨by simp [hlen], fun hx => by simp at hx, fun hx => ?_⟩
              rcases hx with hx | hx | hx <;> simp at hx
  | READING_DUT_START => exact hpayload (Or.inl hst)
  | READING_FREQUENCY => exact hpayload (Or.inr (Or.inl hst))
  | READING_DUT_END => exact hpayload (Or.inr (Or.inr hst))
  | VALIDATING_END =>
      simp only [processIncomingByte, hst]
      exact ⟨hlen, hpt, hps⟩

lemma Reach_RxInv (sys : Sys) (h : Reach sys) : RxInv sys := by
  induction h with
  | init => exact RxInv_init
  | step s b _ ih => exact RxInv_step s b ih

/-- C8: in every reachable receiver state the scratch buffer has its full
32-byte size, and in the payload-collecting states the expected frame length
is one of 4, 7 or 26 and strictly bounds `byteCount`; hence the write index
`byteCount` of the next buffer store is below 32 in every state that stores
a payload byte, and the 32-byte scratch buffer is never overrun. -/
theorem rx_buffer_never_overrun (sys : Sys) (h : Reach sys) :
    sys.rx.buffer.length = 32 ∧
    (PayloadState sys.rx.state →
      (sys.rx.expectedBytes = 4 ∨ sys.rx.expectedBytes = 7 ∨ sys.rx.expectedBytes = 26) ∧
      sys.rx.byteCount < sys.rx.expectedBytes ∧ sys.rx.byteCount < 32) := by
  obtain ⟨hlen, _, hps⟩ := Reach_RxInv sys h
  refine ⟨hlen, fun hp => ?_⟩
  obtain ⟨h2le, hlt, hset⟩ := hps hp
  exact ⟨hset, hlt, by omega⟩

/-- Witness for `rx_buffer_never_overrun`: the reachable state after
`0xAA 0x11`, in the middle of a frequency frame. -/
theorem rx_buffer_never_overrun_witness :
    (processIncomingByte (processIncomingByte initSys 0xAA).1 0x11).1.rx.buffer.length = 32 ∧
    (PayloadState (processIncomingByte (processIncomingByte initSys 0xAA).1 0x11).1.rx.state →
      ((processIncomingByte (processIncomingByte initSys 0xAA).1 0x11).1.rx.expectedBytes = 4 ∨
       (processIncomingByte (processIncomingByte initSys 0xAA).1 0x11).1.rx.expectedBytes = 7 ∨
       (processIncomingByte (processIncomingByte initSys 0xAA).1 0x11).1.rx.expectedBytes = 26) ∧
      (processIncomingByte (processIncomingByte initSys 0xAA).1 0x11).1.rx.byteCount <
        (processIncomingByte (processIncomingByte initSys 0xAA).1 0x11).1.rx.expectedBytes ∧
      (processIncomingByte (processIncomingByte initSys 0xAA).1 0x11).1.rx.byteCount < 32) :=
  rx_buffer_never_overrun _ (Reach.step _ 0x11 (Reach.step _ 0xAA Reach.init))

end BioPal
